import Mathlib

/-!
Verification of the capture/batch/encode scheduling loop of
`node-rtsp-image-to-video` (`src/index.js`).

The JavaScript program is shallowly embedded as follows:

* the string manipulations of the source (`String.prototype.endsWith`,
  the two regular expressions `screenshot-(.+)\.jpg$` and
  `-(\d2)-(\d2)-(\d3)Z$`, `replace` of colons and dots, `Array.prototype.sort`)
  become computable functions on `String` / `List Char`;
* `Date` values become a record of calendar fields; `new Date(ms)` is the
  standard civil-from-days conversion; `new Date(string)` (followed by the
  `isNaN(getTime())` test of line 91) is a partial ISO-8601 parser returning
  `Option JsDate` (`none` models an Invalid Date).  The process time zone is
  taken to be UTC, so the local-time getters used by `formatDate` coincide
  with the stored (UTC) fields;
* the mutable module-level variables (`screenshotCount`, `isCreatingVideo`,
  `captureInterval`, `lastCaptureTime`), the screenshots directory, and the
  in-flight ffmpeg child processes become a state record `St`;
* each asynchronous ffmpeg completion (the end / error callbacks of the
  screenshot grab and of the video encode) and each timer fire becomes an
  event of the inductive type `Ev`; `step` is the induced transition
  function.  An event that has no matching in-flight process is a no-op.
  `setInterval` allocates a fresh timer id (the previous timer, if any,
  keeps running: the `captureInterval` variable is merely overwritten),
  `clearInterval` cancels the timer whose id is currently stored;
* a thrown-and-uncaught JavaScript exception (the `null[1]` TypeError of
  line 82, or a failing `fs.unlinkSync`) sets the `crashed` flag; a crashed
  state takes no further steps;
* ghost fields (`handOffs`, `timerClears`, `gEnter`, `gExitSuccess`,
  `gExitAbort`, `gExitFailure`) count invocations of
  `processRemainingImages`, of `clearInterval`, and the entries/terminal
  outcomes of `createVideoFromBatch`; they are write-only instrumentation
  and influence no branch.
-/

namespace RtspCore

/-- `SCREENSHOT_INTERVAL_MS` of `src/index.js` line 11. -/
def SCREENSHOT_INTERVAL_MS : Nat := 10 * 1000

/-- `VIDEO_CREATION_INTERVAL_MS` of `src/index.js` line 12. -/
def VIDEO_CREATION_INTERVAL_MS : Nat := 3600 * 1000

/-- `TOTAL_CAPTURED_SS_COUNT` of `src/index.js` line 13
(`Math.floor` on non-negative integers is `Nat` division). -/
def TOTAL_CAPTURED_SS_COUNT : Nat :=
  VIDEO_CREATION_INTERVAL_MS / SCREENSHOT_INTERVAL_MS

/-- `pat` is an initial segment of `l` (helper for the string operations). -/
def listStartsWith : List Char → List Char → Bool
  | [], _ => true
  | _ :: _, [] => false
  | p :: ps, c :: cs => p == c && listStartsWith ps cs

/-- `s.endsWith(suffix)` of JavaScript, via reversed character lists. -/
def strEndsWith (s suffix : String) : Bool :=
  listStartsWith suffix.data.reverse s.data.reverse

/-- Index of the leftmost occurrence of `pat` as a contiguous sublist. -/
def findSubIdx (pat : List Char) : List Char → Option Nat
  | [] => if pat.isEmpty then some 0 else none
  | c :: cs =>
    if listStartsWith pat (c :: cs) then some 0
    else (findSubIdx pat cs).map (· + 1)

/-- The literal `screenshot-` searched for by the regex of line 82. -/
def screenshotPat : List Char := "screenshot-".data

/-- `name.match(/screenshot-(.+)\.jpg$/)` of line 82, returning capture
group 1.  The regex matches iff the name ends in `.jpg` and the literal
`screenshot-` occurs with at least one character between it and the final
`.jpg`; the greedy `.+` makes group 1 run from the leftmost occurrence of
`screenshot-` to the final `.jpg`. -/
def matchScreenshotJpg (s : String) : Option String :=
  if strEndsWith s ".jpg" then
    let body := s.data.take (s.data.length - 4)
    match findSubIdx screenshotPat body with
    | some i => if i + 11 < body.length then some ⟨body.drop (i + 11)⟩ else none
    | none => none
  else none

/-- The global replace of line 39: every colon or dot becomes a dash. -/
def replaceColonDot (s : String) : String :=
  ⟨s.data.map fun c => if c == ':' || c == '.' then '-' else c⟩

/-- Decide whether a character is an ASCII digit (`\d` of the regexes). -/
def isDigitCh (c : Char) : Bool := '0' ≤ c && c ≤ '9'

/-- Numeric value of an ASCII digit. -/
def dch (c : Char) : Nat := c.toNat - 48

/-- The `timestampPart.replace` of lines 85-86, whose pattern is
`-(\d2)-(\d2)-(\d3)Z` anchored at the end and whose replacement is
`:$1:$2.$3Z`: if the last eleven characters have the shape
`-DD-DD-DDDZ` they are rewritten to `:DD:DD.DDDZ`, otherwise the string is
returned unchanged. -/
def restoreISO (s : String) : String :=
  let cs := s.data
  let n := cs.length
  if 11 ≤ n then
    match cs.drop (n - 11) with
    | ['-', a, b, '-', c, d, '-', e, f, g, 'Z'] =>
      if [a, b, c, d, e, f, g].all isDigitCh then
        ⟨cs.take (n - 11) ++ [':', a, b, ':', c, d, '.', e, f, g, 'Z']⟩
      else s
    | _ => s
  else s

/-- A JavaScript `Date`, decomposed into (UTC) calendar fields. -/
structure JsDate where
  year : Nat
  month : Nat
  day : Nat
  hour : Nat
  minute : Nat
  second : Nat
  ms : Nat
deriving DecidableEq

/-- Leap-year test of the Gregorian calendar. -/
def leapYear (y : Nat) : Bool := (y % 4 == 0 && y % 100 != 0) || y % 400 == 0

/-- Number of days of month `m` of year `y`. -/
def daysInMonth (y m : Nat) : Nat :=
  if m == 2 then (if leapYear y then 29 else 28)
  else if m == 4 || m == 6 || m == 9 || m == 11 then 30
  else 31

/-- Build a `JsDate` when the fields are in range, else `none` (models the
range validation JavaScript applies to ISO-format date strings). -/
def mkValidDate (y mo d h mi s ms : Nat) : Option JsDate :=
  if 1 ≤ mo && mo ≤ 12 && 1 ≤ d && d ≤ daysInMonth y mo
      && h ≤ 23 && mi ≤ 59 && s ≤ 59 && ms ≤ 999 then
    some ⟨y, mo, d, h, mi, s, ms⟩
  else none

/-- `new Date(str)` of line 89 together with the `isNaN` test of line 91:
parses `YYYY-MM-DDTHH:MM:SS.mmmZ` (the shape `restoreISO` produces from a
well-formed screenshot timestamp) and the date-only `YYYY-MM-DD` shape;
anything else is an Invalid Date, i.e. `none`. -/
def parseJsDate (str : String) : Option JsDate :=
  match str.data with
  | [y1, y2, y3, y4, '-', m1, m2, '-', d1, d2] =>
    if [y1, y2, y3, y4, m1, m2, d1, d2].all isDigitCh then
      mkValidDate (1000 * dch y1 + 100 * dch y2 + 10 * dch y3 + dch y4)
        (10 * dch m1 + dch m2) (10 * dch d1 + dch d2) 0 0 0 0
    else none
  | [y1, y2, y3, y4, '-', m1, m2, '-', d1, d2, 'T',
     h1, h2, ':', n1, n2, ':', s1, s2, '.', p1, p2, p3, 'Z'] =>
    if [y1, y2, y3, y4, m1, m2, d1, d2, h1, h2, n1, n2, s1, s2, p1, p2, p3].all
        isDigitCh then
      mkValidDate (1000 * dch y1 + 100 * dch y2 + 10 * dch y3 + dch y4)
        (10 * dch m1 + dch m2) (10 * dch d1 + dch d2)
        (10 * dch h1 + dch h2) (10 * dch n1 + dch n2) (10 * dch s1 + dch s2)
        (100 * dch p1 + 10 * dch p2 + dch p3)
    else none
  | _ => none

/-- `new Date(now)` for a non-negative epoch-millisecond count: the standard
civil-from-days conversion. -/
def msToDate (t : Nat) : JsDate :=
  let days := t / 86400000
  let rem := t % 86400000
  let z := days + 719468
  let era := z / 146097
  let doe := z % 146097
  let yoe := (doe - doe / 1460 + doe / 36524 - doe / 146096) / 365
  let doy := doe - (365 * yoe + yoe / 4 - yoe / 100)
  let mp := (5 * doy + 2) / 153
  let dd := doy - (153 * mp + 2) / 5 + 1
  let mo := if mp < 10 then mp + 3 else mp - 9
  let yr := yoe + era * 400 + (if mo ≤ 2 then 1 else 0)
  { year := yr, month := mo, day := dd,
    hour := rem / 3600000, minute := rem % 3600000 / 60000,
    second := rem % 60000 / 1000, ms := rem % 1000 }

/-- `String(n).padStart(2)` with a zero fill character. -/
def pad2 (n : Nat) : String := if n < 10 then "0" ++ toString n else toString n

/-- Three-digit zero padding (the milliseconds of `toISOString`). -/
def pad3 (n : Nat) : String :=
  if n < 10 then "00" ++ toString n
  else if n < 100 then "0" ++ toString n
  else toString n

/-- Four-digit zero padding (the year of `toISOString`). -/
def pad4 (n : Nat) : String :=
  if n < 10 then "000" ++ toString n
  else if n < 100 then "00" ++ toString n
  else if n < 1000 then "0" ++ toString n
  else toString n

/-- `date.toISOString()`: `YYYY-MM-DDTHH:MM:SS.mmmZ`. -/
def toISOString (d : JsDate) : String :=
  pad4 d.year ++ "-" ++ pad2 d.month ++ "-" ++ pad2 d.day ++ "T"
    ++ pad2 d.hour ++ ":" ++ pad2 d.minute ++ ":" ++ pad2 d.second ++ "."
    ++ pad3 d.ms ++ "Z"

/-- `date.getFullYear()` (time zone assumed UTC, see the file comment). -/
def getFullYear (d : JsDate) : Nat := d.year

/-- `date.getMonth()` — zero-based, as in JavaScript. -/
def getMonth (d : JsDate) : Nat := d.month - 1

/-- `date.getDate()`. -/
def getDate (d : JsDate) : Nat := d.day

/-- `date.getHours()`. -/
def getHours (d : JsDate) : Nat := d.hour

/-- `date.getMinutes()`. -/
def getMinutes (d : JsDate) : Nat := d.minute

/-- `formatDate` of `src/index.js` lines 129-131. -/
def formatDate (date : JsDate) : String :=
  toString (getFullYear date) ++ "-" ++ pad2 (getMonth date + 1) ++ "-"
    ++ pad2 (getDate date) ++ "-" ++ pad2 (getHours date) ++ "-"
    ++ pad2 (getMinutes date)

/-- The in-flight video-encode ffmpeg invocation: the batch captured by the
closures of lines 113-126 (`batchFiles`) and the output name computed on
line 99. -/
structure EncodeJob where
  files : List String
  videoName : String
deriving DecidableEq

/-- The mutable state of the program: the module-level variables of lines
15-18, the timer bookkeeping of `setInterval` and `clearInterval`, the
screenshots directory, the in-flight ffmpeg child processes, the produced
videos, a crash marker for an uncaught exception, and write-only ghost
counters (see the file comment). -/
structure St where
  screenshotCount : Nat
  isCreatingVideo : Bool
  captureInterval : Option Nat
  lastCaptureTime : Nat
  liveTimers : List Nat
  nextTimerId : Nat
  dir : List String
  pendingCapture : List String
  pendingEncode : Option EncodeJob
  videos : List String
  crashed : Bool
  handOffs : Nat
  timerClears : Nat
  gEnter : Nat
  gExitSuccess : Nat
  gExitAbort : Nat
  gExitFailure : Nat
deriving DecidableEq

/-- The state at module load, with the given pre-existing directory
contents. -/
def mkInit (d0 : List String) : St :=
  { screenshotCount := 0, isCreatingVideo := false, captureInterval := none,
    lastCaptureTime := 0, liveTimers := [], nextTimerId := 0, dir := d0,
    pendingCapture := [], pendingEncode := none, videos := [],
    crashed := false, handOffs := 0, timerClears := 0, gEnter := 0,
    gExitSuccess := 0, gExitAbort := 0, gExitFailure := 0 }

/-- `fs.writeFileSync`: creates the file if absent, truncates it otherwise
(only the name matters for the claims). -/
def writeFile (dir : List String) (name : String) : List String :=
  if dir.contains name then dir else name :: dir

/-- Name of the transient manifest, line 74. -/
def listFileName : String := "filelist.txt"

/-- `startCapturing` of lines 152-154: `setInterval` allocates a fresh
repeating timer and its id overwrites the `captureInterval` variable; a
previously running timer is not cancelled. -/
def startCapturing (st : St) : St :=
  { st with captureInterval := some st.nextTimerId,
            liveTimers := st.nextTimerId :: st.liveTimers,
            nextTimerId := st.nextTimerId + 1 }

/-- `resumeCapturing` of lines 134-137. -/
def resumeCapturing (st : St) : St := startCapturing st

/-- `clearInterval(captureInterval)`: cancels the timer whose id is stored
in the variable (a no-op when the variable is unset). -/
def clearCurrentInterval (timers : List Nat) : Option Nat → List Nat
  | none => timers
  | some h => timers.erase h

/-- Filename of the screenshot captured at epoch-millisecond `now`,
line 39-40. -/
def screenshotName (now : Nat) : String :=
  "screenshot-" ++ replaceColonDot (toISOString (msToDate now)) ++ ".jpg"

/-- The synchronous part of `captureScreenshot` (lines 33-44): the guard of
line 36, the debounce update of line 37, and the spawn of the screenshot
ffmpeg process.  `now - lastCaptureTime` on `Nat` agrees with the
JavaScript comparison: when `now < lastCaptureTime` both sides make the
guard fire. -/
def captureScreenshot (now : Nat) (st : St) : St :=
  if st.isCreatingVideo || now - st.lastCaptureTime < SCREENSHOT_INTERVAL_MS then
    st
  else
    { st with lastCaptureTime := now,
              pendingCapture := st.pendingCapture ++ [screenshotName now] }

/-- `createVideoFromBatch` of lines 62-127, up to spawning the encode
ffmpeg process.  The manifest is written (line 76) before the timestamp of
the last batch file is matched (line 82); a failing match makes line 82
throw an uncaught TypeError, modelled by the `crashed` flag. -/
def createVideoFromBatch (files : List String) (st : St) : St :=
  if st.isCreatingVideo then st
  else
    let st1 := { st with isCreatingVideo := true, gEnter := st.gEnter + 1 }
    if files.length < TOTAL_CAPTURED_SS_COUNT then
      resumeCapturing
        { st1 with isCreatingVideo := false, gExitAbort := st1.gExitAbort + 1 }
    else
      let st2 := { st1 with dir := writeFile st1.dir listFileName }
      let batchFiles := files.take TOTAL_CAPTURED_SS_COUNT
      let firstImageFileName := batchFiles.getLastD ""
      match matchScreenshotJpg firstImageFileName with
      | none => { st2 with crashed := true }
      | some timestampPart =>
        match parseJsDate (restoreISO timestampPart) with
        | none =>
          resumeCapturing
            { st2 with isCreatingVideo := false,
                       gExitAbort := st2.gExitAbort + 1 }
        | some lastImageTime =>
          { st2 with
              pendingEncode := some
                { files := batchFiles,
                  videoName := "video-" ++ formatDate lastImageTime ++ ".mp4" } }

/-- Lexicographic comparison of character lists by code point, as the
default `Array.prototype.sort` comparator orders strings. -/
def listCharLe : List Char → List Char → Bool
  | [], _ => true
  | _ :: _, [] => false
  | a :: as, b :: bs =>
    if a.toNat < b.toNat then true
    else if b.toNat < a.toNat then false
    else listCharLe as bs

/-- String comparison of the default JavaScript sort. -/
def strLe (a b : String) : Bool := listCharLe a.data b.data

/-- The order relation of the JavaScript sort, as a proposition. -/
def StrLe (a b : String) : Prop := strLe a b = true

instance : DecidableRel StrLe := fun a b =>
  instDecidableEqBool (strLe a b) true

/-- The sorted `.jpg` listing of line 141.  `Array.prototype.sort` on
pairwise-distinct strings produces the unique lexicographically sorted
permutation; `List.insertionSort` computes it (and is stable, as the
JavaScript sort is). -/
def sortedJpgs (d : List String) : List String :=
  List.insertionSort StrLe (d.filter fun f => strEndsWith f ".jpg")

/-- `processRemainingImages` of lines 140-149.  The ghost counter
`handOffs` records each invocation. -/
def processRemainingImages (st : St) : St :=
  let st1 := { st with handOffs := st.handOffs + 1 }
  let files := sortedJpgs st1.dir
  if TOTAL_CAPTURED_SS_COUNT ≤ files.length then createVideoFromBatch files st1
  else resumeCapturing st1

/-- The end callback of the screenshot ffmpeg process (lines 46-54): the
captured file is on disk, `screenshotCount` is incremented, and when the
batch threshold is reached the timer is cancelled and
`processRemainingImages` is invoked. -/
def captureEnd (st : St) : St :=
  match st.pendingCapture with
  | [] => st
  | name :: rest =>
    let st1 := { st with pendingCapture := rest, dir := writeFile st.dir name }
    let c := st1.screenshotCount + 1
    let st2 := { st1 with screenshotCount := c }
    if TOTAL_CAPTURED_SS_COUNT ≤ c then
      let st3 :=
        { st2 with
            liveTimers := clearCurrentInterval st2.liveTimers st2.captureInterval,
            captureInterval := none,
            timerClears := st2.timerClears + 1 }
      processRemainingImages st3
    else st2

/-- The error callback of the screenshot ffmpeg process (lines 55-57):
only a log line; the counter is untouched. -/
def captureError (st : St) : St :=
  match st.pendingCapture with
  | [] => st
  | _ :: rest => { st with pendingCapture := rest }

/-- One `fs.unlinkSync` per file (line 115); a missing file makes
`unlinkSync` throw, which the source does not catch — the `Bool` is the
crash marker and stops the iteration. -/
def unlinkAll : List String → List String → List String × Bool
  | [], dir => (dir, false)
  | f :: rest, dir =>
    if dir.contains f then unlinkAll rest (dir.erase f) else (dir, true)

/-- The end callback of the encode ffmpeg process, lines 113-120, without
the trailing `processRemainingImages` call: write the video, delete the
batch files and the manifest, reset the counter, clear the flag. -/
def encodeEndCore (job : EncodeJob) (st : St) : St :=
  let st1 := { st with videos := st.videos ++ [job.videoName],
                       pendingEncode := none }
  match unlinkAll job.files st1.dir with
  | (d, true) => { st1 with dir := d, crashed := true }
  | (d, false) =>
    if d.contains listFileName then
      { st1 with dir := d.erase listFileName, screenshotCount := 0,
                 isCreatingVideo := false,
                 gExitSuccess := st1.gExitSuccess + 1 }
    else { st1 with dir := d, crashed := true }

/-- The full end callback of the encode ffmpeg process (lines 113-120). -/
def encodeEnd (st : St) : St :=
  match st.pendingEncode with
  | none => st
  | some job =>
    let st1 := encodeEndCore job st
    if st1.crashed then st1 else processRemainingImages st1

/-- The error callback of the encode ffmpeg process (lines 121-125):
clear the flag and resume capturing; nothing is deleted. -/
def encodeError (st : St) : St :=
  match st.pendingEncode with
  | none => st
  | some _ =>
    resumeCapturing
      { st with pendingEncode := none, isCreatingVideo := false,
                gExitFailure := st.gExitFailure + 1 }

/-- `processImagesOnStartup` of lines 157-160. -/
def processImagesOnStartup (st : St) : St := processRemainingImages st

/-- Module execution of lines 163-166: the startup scan runs first; if it
throws, the script dies before `startCapturing` is reached. -/
def boot (d0 : List String) : St :=
  let st := processImagesOnStartup (mkInit d0)
  if st.crashed then st else startCapturing st

/-- The asynchronous events driving the system: a timer fire at a given
epoch-millisecond, and the end / error callbacks of the two kinds of
ffmpeg child processes. -/
inductive Ev where
  | tick (now : Nat)
  | capEnd
  | capErr
  | encEnd
  | encErr
deriving DecidableEq

/-- One transition.  A crashed script runs no further JavaScript. -/
def step (e : Ev) (st : St) : St :=
  if st.crashed then st
  else
    match e with
    | .tick now => captureScreenshot now st
    | .capEnd => captureEnd st
    | .capErr => captureError st
    | .encEnd => encodeEnd st
    | .encErr => encodeError st

/-- Run a list of events. -/
def run (tr : List Ev) (st : St) : St := tr.foldl (fun s e => step e s) st

/-- The event is a timer fire or a capture callback (no encode
callbacks). -/
def isCapturePhaseEv : Ev → Bool
  | .tick _ => true
  | .capEnd => true
  | .capErr => true
  | _ => false

/-- The trace uses only capture-phase events (no encode callbacks). -/
def capturePhase (tr : List Ev) : Bool := tr.all isCapturePhaseEv

/-- The event is a successful-capture callback. -/
def isCapEndEv : Ev → Bool
  | .capEnd => true
  | _ => false

/-- Number of successful-capture callbacks in a trace. -/
def capEndCount (tr : List Ev) : Nat := tr.countP isCapEndEv

/-- A capture callback is only fired when a capture is in flight. -/
def capReady (e : Ev) (st : St) : Bool :=
  match e with
  | .capEnd => !st.pendingCapture.isEmpty
  | .capErr => !st.pendingCapture.isEmpty
  | _ => true

/-- Every capture callback of the trace corresponds to an in-flight
capture, as the callbacks of real ffmpeg child processes do. -/
def capturesOk : St → List Ev → Bool
  | _, [] => true
  | st, e :: tr => capReady e st && capturesOk (step e st) tr

/-! ### Helper lemmas about the string operations -/

theorem listStartsWith_append (p r : List Char) :
    listStartsWith p (p ++ r) = true := by
  induction p with
  | nil => rfl
  | cons a as ih => simp [listStartsWith, ih]

theorem strEndsWith_concat (x y : String) : strEndsWith (x ++ y) y = true := by
  unfold strEndsWith
  rw [String.data_append, List.reverse_append]
  exact listStartsWith_append _ _

theorem findSubIdx_self (r : List Char) :
    findSubIdx screenshotPat (screenshotPat ++ r) = some 0 := by
  have h : screenshotPat = 's' :: "creenshot-".data := by decide
  rw [h, List.cons_append, findSubIdx, ← List.cons_append, ← h,
    listStartsWith_append]
  rfl

/-- The regex of line 82 on a name of the shape the capturer produces:
group 1 is exactly the embedded timestamp text. -/
theorem matchScreenshotJpg_concat (mid : String) (h : mid.data ≠ []) :
    matchScreenshotJpg ("screenshot-" ++ mid ++ ".jpg") = some mid := by
  have hpat : "screenshot-".data = screenshotPat := rfl
  unfold matchScreenshotJpg
  rw [strEndsWith_concat]
  simp only [if_true]
  rw [String.data_append, String.data_append, hpat]
  have key : (screenshotPat ++ mid.data ++ ".jpg".data).length - 4
      = (screenshotPat ++ mid.data).length := by
    simp [List.length_append]
    omega
  rw [key, List.take_left, findSubIdx_self]
  show (if 0 + 11 < (screenshotPat ++ mid.data).length then
      some (String.mk ((screenshotPat ++ mid.data).drop (0 + 11))) else none)
    = some mid
  have hpos : 0 < mid.data.length := List.length_pos.mpr h
  have hcond : 0 + 11 < (screenshotPat ++ mid.data).length := by
    have hplen : screenshotPat.length = 11 := rfl
    rw [List.length_append, hplen]
    omega
  rw [if_pos hcond]
  have hdrop : (screenshotPat ++ mid.data).drop (0 + 11) = mid.data := by
    have h11 : 0 + 11 = screenshotPat.length := rfl
    rw [h11, List.drop_left]
  rw [hdrop]

theorem toISOString_data_ne_nil (d : JsDate) : (toISOString d).data ≠ [] := by
  unfold toISOString
  rw [String.data_append]
  exact List.append_ne_nil_of_right_ne_nil _ (by decide)

theorem replaceColonDot_data_ne_nil {s : String} (h : s.data ≠ []) :
    (replaceColonDot s).data ≠ [] := by
  unfold replaceColonDot
  simpa using h

/-- Every filename the capturer generates matches the regex of line 82. -/
theorem screenshotName_matches (now : Nat) :
    (matchScreenshotJpg (screenshotName now)).isSome = true := by
  unfold screenshotName
  rw [matchScreenshotJpg_concat _ (replaceColonDot_data_ne_nil
    (toISOString_data_ne_nil _))]
  rfl

/-! ### The sort order is total and transitive -/

theorem listCharLe_total (as bs : List Char) :
    listCharLe as bs = true ∨ listCharLe bs as = true := by
  induction as generalizing bs with
  | nil => left; rfl
  | cons a at' ih =>
    cases bs with
    | nil => right; rfl
    | cons b bt =>
      unfold listCharLe
      rcases Nat.lt_trichotomy a.toNat b.toNat with h | h | h
      · left; simp [h]
      · have h1 : ¬ a.toNat < b.toNat := by omega
        have h2 : ¬ b.toNat < a.toNat := by omega
        rcases ih bt with ih1 | ih1 <;> simp [h1, h2, ih1]
      · right; simp [h, Nat.lt_asymm h]

theorem listCharLe_trans {as bs cs : List Char} (h1 : listCharLe as bs = true)
    (h2 : listCharLe bs cs = true) : listCharLe as cs = true := by
  induction as generalizing bs cs with
  | nil => rfl
  | cons a at' ih =>
    cases bs with
    | nil => simp [listCharLe] at h1
    | cons b bt =>
      cases cs with
      | nil => simp [listCharLe] at h2
      | cons c ct =>
        unfold listCharLe at h1 h2 ⊢
        rcases Nat.lt_trichotomy a.toNat b.toNat with hab | hab | hab
        · rcases Nat.lt_trichotomy b.toNat c.toNat with hbc | hbc | hbc
          · rw [if_pos (show a.toNat < c.toNat by omega)]
          · rw [if_pos (show a.toNat < c.toNat by omega)]
          · rw [if_neg (show ¬ b.toNat < c.toNat by omega),
              if_pos (show c.toNat < b.toNat by omega)] at h2
            exact absurd h2 (by simp)
        · rw [if_neg (show ¬ a.toNat < b.toNat by omega),
            if_neg (show ¬ b.toNat < a.toNat by omega)] at h1
          rcases Nat.lt_trichotomy b.toNat c.toNat with hbc | hbc | hbc
          · rw [if_pos (show a.toNat < c.toNat by omega)]
          · rw [if_neg (show ¬ b.toNat < c.toNat by omega),
              if_neg (show ¬ c.toNat < b.toNat by omega)] at h2
            rw [if_neg (show ¬ a.toNat < c.toNat by omega),
              if_neg (show ¬ c.toNat < a.toNat by omega)]
            exact ih h1 h2
          · rw [if_neg (show ¬ b.toNat < c.toNat by omega),
              if_pos (show c.toNat < b.toNat by omega)] at h2
            exact absurd h2 (by simp)
        · rw [if_neg (show ¬ a.toNat < b.toNat by omega),
            if_pos (show b.toNat < a.toNat by omega)] at h1
          exact absurd h1 (by simp)

instance : IsTotal String StrLe :=
  ⟨fun a b => listCharLe_total a.data b.data⟩

instance : IsTrans String StrLe :=
  ⟨fun _ _ _ h1 h2 => listCharLe_trans h1 h2⟩

/-! ### Deletion of a present batch -/

/-- When the files to delete are pairwise distinct and all present,
`unlinkSync` never throws and the directory loses exactly those files. -/
theorem unlinkAll_eq (fs : List String) (dir : List String) (hnd : dir.Nodup)
    (hfs : fs.Nodup) (hsub : ∀ f ∈ fs, f ∈ dir) :
    unlinkAll fs dir = (dir.filter (fun x => !fs.contains x), false) := by
  induction fs generalizing dir with
  | nil => simp [unlinkAll]
  | cons f rest ih =>
    have hf : dir.contains f := by
      simpa using hsub f (List.mem_cons_self f rest)
    unfold unlinkAll
    rw [if_pos hf]
    have hnd' : (dir.erase f).Nodup := hnd.erase f
    have hrest : ∀ g ∈ rest, g ∈ dir.erase f := by
      intro g hg
      have hgd : g ∈ dir := hsub g (List.mem_cons_of_mem _ hg)
      have hne : g ≠ f := by
        intro e; subst e
        exact (List.nodup_cons.mp hfs).1 hg
      exact List.mem_erase_of_ne hne |>.mpr hgd
    rw [ih (dir.erase f) hnd' (List.nodup_cons.mp hfs).2 hrest]
    congr 1
    rw [hnd.erase_eq_filter f, List.filter_filter]
    apply List.filter_congr
    intro x _
    by_cases h1 : x = f <;> by_cases h2 : x ∈ rest <;> simp [h1, h2]

/-! ### Ghost-counter bookkeeping of the scheduling functions -/

/-- Exhaustive characterization of `createVideoFromBatch`: the no-op on a
set flag, the shortfall abort, the TypeError crash of line 82, the
parse-failure abort, and the encode spawn. -/
theorem cvb_cases (files : List String) (st : St) :
    (st.isCreatingVideo = true ∧ createVideoFromBatch files st = st)
    ∨ (st.isCreatingVideo = false ∧ files.length < TOTAL_CAPTURED_SS_COUNT ∧
        createVideoFromBatch files st = resumeCapturing
          { st with isCreatingVideo := false, gEnter := st.gEnter + 1,
                    gExitAbort := st.gExitAbort + 1 })
    ∨ (st.isCreatingVideo = false ∧ TOTAL_CAPTURED_SS_COUNT ≤ files.length ∧
        matchScreenshotJpg ((files.take TOTAL_CAPTURED_SS_COUNT).getLastD "")
          = none ∧
        createVideoFromBatch files st
          = { st with isCreatingVideo := true, gEnter := st.gEnter + 1,
                      dir := writeFile st.dir listFileName, crashed := true })
    ∨ (∃ ts, st.isCreatingVideo = false ∧ TOTAL_CAPTURED_SS_COUNT ≤ files.length ∧
        matchScreenshotJpg ((files.take TOTAL_CAPTURED_SS_COUNT).getLastD "")
          = some ts ∧
        ((parseJsDate (restoreISO ts) = none ∧
          createVideoFromBatch files st = resumeCapturing
            { st with isCreatingVideo := false,
                      dir := writeFile st.dir listFileName,
                      gEnter := st.gEnter + 1,
                      gExitAbort := st.gExitAbort + 1 })
         ∨ (∃ d, parseJsDate (restoreISO ts) = some d ∧
            createVideoFromBatch files st
              = { st with isCreatingVideo := true, gEnter := st.gEnter + 1,
                          dir := writeFile st.dir listFileName,
                          pendingEncode := some
                            { files := files.take TOTAL_CAPTURED_SS_COUNT,
                              videoName :=
                                "video-" ++ formatDate d ++ ".mp4" } }))) := by
  cases hflag : st.isCreatingVideo with
  | true =>
    refine Or.inl ⟨rfl, ?_⟩
    unfold createVideoFromBatch
    rw [if_pos hflag]
  | false =>
    have hnot : ¬ st.isCreatingVideo = true := by simp [hflag]
    by_cases hlen : files.length < TOTAL_CAPTURED_SS_COUNT
    · refine Or.inr (Or.inl ⟨rfl, hlen, ?_⟩)
      unfold createVideoFromBatch
      rw [if_neg hnot, if_pos hlen]
    · have hge : TOTAL_CAPTURED_SS_COUNT ≤ files.length := Nat.le_of_not_lt hlen
      cases hm : matchScreenshotJpg
          ((files.take TOTAL_CAPTURED_SS_COUNT).getLastD "") with
      | none =>
        refine Or.inr (Or.inr (Or.inl ⟨rfl, hge, rfl, ?_⟩))
        unfold createVideoFromBatch
        rw [if_neg hnot, if_neg hlen]
        dsimp only
        simp only [hm]
      | some ts =>
        cases hp : parseJsDate (restoreISO ts) with
        | none =>
          refine Or.inr (Or.inr (Or.inr ⟨ts, rfl, hge, rfl, Or.inl ⟨hp, ?_⟩⟩))
          unfold createVideoFromBatch
          rw [if_neg hnot, if_neg hlen]
          dsimp only
          simp only [hm, hp]
        | some d =>
          refine Or.inr (Or.inr (Or.inr ⟨ts, rfl, hge, rfl,
            Or.inr ⟨d, hp, ?_⟩⟩))
          unfold createVideoFromBatch
          rw [if_neg hnot, if_neg hlen]
          dsimp only
          simp only [hm, hp]

theorem cvb_handOffs (files : List String) (st : St) :
    (createVideoFromBatch files st).handOffs = st.handOffs := by
  rcases cvb_cases files st with ⟨_, he⟩ | ⟨_, _, he⟩ | ⟨_, _, _, he⟩ |
    ⟨ts, _, _, _, ⟨_, he⟩ | ⟨d, _, he⟩⟩ <;>
    rw [he] <;> simp [resumeCapturing, startCapturing]

theorem cvb_screenshotCount (files : List String) (st : St) :
    (createVideoFromBatch files st).screenshotCount = st.screenshotCount := by
  rcases cvb_cases files st with ⟨_, he⟩ | ⟨_, _, he⟩ | ⟨_, _, _, he⟩ |
    ⟨ts, _, _, _, ⟨_, he⟩ | ⟨d, _, he⟩⟩ <;>
    rw [he] <;> simp [resumeCapturing, startCapturing]

theorem pri_screenshotCount (st : St) :
    (processRemainingImages st).screenshotCount = st.screenshotCount := by
  unfold processRemainingImages
  dsimp only
  split
  · rw [cvb_screenshotCount]
  · simp [resumeCapturing, startCapturing]

theorem pri_handOffs (st : St) :
    (processRemainingImages st).handOffs = st.handOffs + 1 := by
  unfold processRemainingImages
  dsimp only
  split
  · rw [cvb_handOffs]
  · simp [resumeCapturing, startCapturing]

/-! ### Concrete directory contents used by several checks -/

/-- A well-formed screenshot filename whose embedded timestamp parses. -/
def goodName (i : Nat) : String :=
  "screenshot-2024-01-02T03-04-05-" ++ pad3 i ++ "Z.jpg"

/-- 360 distinct, lexicographically increasing, parseable frame files. -/
def good360 : List String := (List.range 360).map goodName

/-- 360 distinct `.jpg` files that do not match the screenshot pattern. -/
def bad360 : List String := (List.range 360).map fun i => "img-" ++ pad3 i ++ ".jpg"


/-! ### Small facts about `writeFile` and the jpg listing -/

theorem mem_writeFile_of_mem {d : List String} {x : String} (n : String)
    (h : x ∈ d) : x ∈ writeFile d n := by
  unfold writeFile
  split
  · exact h
  · exact List.mem_cons_of_mem _ h

theorem self_mem_writeFile (d : List String) (n : String) : n ∈ writeFile d n := by
  unfold writeFile
  split
  · next hc => exact List.elem_iff.mp hc
  · exact List.mem_cons_self _ _

theorem writeFile_nodup {d : List String} (n : String) (h : d.Nodup) :
    (writeFile d n).Nodup := by
  unfold writeFile
  split
  · exact h
  · next hc =>
    exact List.nodup_cons.mpr ⟨fun hm => hc (List.elem_iff.mpr hm), h⟩

theorem mem_of_mem_writeFile {d : List String} {x n : String}
    (h : x ∈ writeFile d n) : x ∈ d ∨ x = n := by
  unfold writeFile at h
  split at h
  · exact Or.inl h
  · rcases List.mem_cons.mp h with h | h
    · exact Or.inr h
    · exact Or.inl h

theorem manifest_not_jpg : strEndsWith listFileName ".jpg" = false := by decide

theorem manifest_not_mem_sortedJpgs (d : List String) :
    listFileName ∉ sortedJpgs d := by
  intro hmem
  unfold sortedJpgs at hmem
  rw [List.mem_insertionSort, List.mem_filter, manifest_not_jpg] at hmem
  exact absurd hmem.2 (by simp)

theorem sortedJpgs_writeFile_manifest (d : List String) :
    sortedJpgs (writeFile d listFileName) = sortedJpgs d := by
  unfold sortedJpgs writeFile
  by_cases hc : d.contains listFileName
  · rw [if_pos hc]
  · rw [if_neg hc]
    rw [show List.filter (fun f => strEndsWith f ".jpg") (listFileName :: d)
        = List.filter (fun f => strEndsWith f ".jpg") d by
      simp [List.filter_cons, manifest_not_jpg]]

theorem mem_sortedJpgs {d : List String} {f : String} (h : f ∈ sortedJpgs d) :
    f ∈ d ∧ strEndsWith f ".jpg" = true := by
  unfold sortedJpgs at h
  rw [List.mem_insertionSort, List.mem_filter] at h
  exact h

theorem sortedJpgs_nodup {d : List String} (h : d.Nodup) :
    (sortedJpgs d).Nodup := by
  unfold sortedJpgs
  exact ((List.perm_insertionSort _ _).nodup_iff).mpr (h.filter _)

theorem getLastD_mem {l : List String} (hne : l ≠ []) (d : String) :
    l.getLastD d ∈ l := by
  induction l with
  | nil => exact absurd rfl hne
  | cons a as ih =>
    cases has : as with
    | nil => simp [List.getLastD]
    | cons b bs =>
      rw [List.getLastD_cons]
      subst has
      exact List.mem_cons_of_mem _ (by simpa using ih (by simp))

/-! ### Claim C5 -/

/-- C5: the claim says at most one periodic capture timer is ever active,
in particular across the startup sequence.  The code violates this: with an
empty screenshots directory, the startup scan finds fewer than N frames and
calls `resumeCapturing` (which starts interval 0), after which line 166
calls `startCapturing` again (interval 1); the variable `captureInterval`
only remembers the second id, and both intervals are live. -/
theorem c5_duplicate_timer_after_startup :
    (boot []).liveTimers.length = 2 := by decide

/-! ### Claim C10 -/

/-- C10: the recovery listing of line 141 admits only names ending in
`.jpg`, so the manifest `filelist.txt` is never counted toward the batch
threshold, never part of a selected batch (hence never deleted as a
consumed frame), and writing it does not change the listing. -/
theorem c10_manifest_excluded_from_batches (d : List String) :
    listFileName ∉ sortedJpgs d
    ∧ sortedJpgs (writeFile d listFileName) = sortedJpgs d
    ∧ listFileName ∉ (sortedJpgs d).take TOTAL_CAPTURED_SS_COUNT :=
  ⟨manifest_not_mem_sortedJpgs d, sortedJpgs_writeFile_manifest d,
   fun hmem => manifest_not_mem_sortedJpgs d (List.take_subset _ _ hmem)⟩

/-! ### Claim C9, counterexample -/

set_option maxRecDepth 100000 in
/-- C9 counterexample: the claim says no operational error crashes the
process, explicitly including arbitrary `.jpg` filenames in the frame
directory.  But on startup over 360 `.jpg` files that do not match the
screenshot pattern, line 82 evaluates `null[1]` and the uncaught TypeError
kills the script. -/
theorem c9_foreign_jpg_name_crashes : (boot bad360).crashed = true := by
  decide

/-! ### Claim C7, counterexample -/

set_option maxRecDepth 100000 in
/-- C7 counterexample: the claim says the manifest is deleted on every
terminal outcome of the encode attempt, success and failure alike.  On the
reachable state `boot good360` (startup over a full backlog batch) an
encode is in flight and `filelist.txt` exists; after the encode fails
(`encodeError`, the terminal failure outcome, which clears the flag), the
manifest is still on disk: the error handler of lines 121-125 deletes
nothing. -/
theorem c7_manifest_survives_encode_failure :
    (boot good360).pendingEncode.isSome = true
    ∧ listFileName ∈ (boot good360).dir
    ∧ (encodeError (boot good360)).pendingEncode = none
    ∧ (encodeError (boot good360)).isCreatingVideo = false
    ∧ listFileName ∈ (encodeError (boot good360)).dir := by decide

/-! ### Claim C8, counterexample -/

/-- The state after startup with an empty directory, a tick at t = 10000
whose capture attempt fails, and the failure callback. -/
def c8state : St := run [Ev.tick 10000, Ev.capErr] (boot [])

/-- C8 counterexample: the claim says a tick is a no-op exactly when the
mutual-exclusion flag is set or less than one period has passed since the
last *successful* capture.  In `c8state` the flag is clear and no capture
has ever succeeded (counter 0, nothing in flight), yet the tick at
t = 15000 is a complete no-op, because the debounce timestamp was set by
the *failed attempt* at t = 10000: the guard measures attempts, not
successes. -/
theorem c8_noop_despite_no_successful_capture :
    c8state.isCreatingVideo = false
    ∧ c8state.screenshotCount = 0
    ∧ c8state.pendingCapture = []
    ∧ step (Ev.tick 15000) c8state = c8state := by decide

/-! ### Claim C3 -/

/-- Exact effect of a successful encode completion over a directory that
still holds the batch and the manifest (the success callback of lines
113-120). -/
theorem encodeEndCore_spec (st : St) (job : EncodeJob)
    (hpe : st.pendingEncode = some job) (hcr : st.crashed = false)
    (hnd : st.dir.Nodup) (hbn : job.files.Nodup)
    (hsub : ∀ f ∈ job.files, f ∈ st.dir)
    (hlf : listFileName ∈ st.dir) (hnlf : listFileName ∉ job.files) :
    (encodeEndCore job st).dir
        = st.dir.filter (fun x => !job.files.contains x && !(x == listFileName))
    ∧ (encodeEndCore job st).screenshotCount = 0
    ∧ (encodeEndCore job st).isCreatingVideo = false
    ∧ (encodeEndCore job st).crashed = false
    ∧ (encodeEndCore job st).videos = st.videos ++ [job.videoName]
    ∧ encodeEnd st = processRemainingImages (encodeEndCore job st)
    ∧ (encodeEnd st).handOffs = st.handOffs + 1 := by
  have hu : unlinkAll job.files st.dir
      = (st.dir.filter (fun x => !job.files.contains x), false) :=
    unlinkAll_eq _ _ hnd hbn hsub
  have hcont : (st.dir.filter fun x => !job.files.contains x).contains
      listFileName = true := by
    have hmem : listFileName ∈ st.dir.filter fun x => !job.files.contains x := by
      rw [List.mem_filter]
      exact ⟨hlf, by simpa using hnlf⟩
    simpa using hmem
  have hdir : ((st.dir.filter fun x => !job.files.contains x).erase listFileName)
      = st.dir.filter (fun x => !job.files.contains x && !(x == listFileName)) := by
    rw [(hnd.filter _).erase_eq_filter, List.filter_filter]
    apply List.filter_congr
    intro x _
    rw [Bool.and_comm]
    rfl
  have hcore : encodeEndCore job st = { st with
      videos := st.videos ++ [job.videoName], pendingEncode := none,
      dir := st.dir.filter (fun x => !job.files.contains x && !(x == listFileName)),
      screenshotCount := 0, isCreatingVideo := false,
      gExitSuccess := st.gExitSuccess + 1 } := by
    unfold encodeEndCore
    dsimp only
    rw [hu]
    dsimp only
    rw [if_pos hcont, hdir]
  have hee : encodeEnd st = processRemainingImages (encodeEndCore job st) := by
    unfold encodeEnd
    rw [hpe]
    dsimp only
    rw [if_neg (by rw [hcore]; simp [hcr])]
  refine ⟨?_, ?_, ?_, ?_, ?_, hee, ?_⟩
  · rw [hcore]
  · rw [hcore]
  · rw [hcore]
  · rw [hcore]; exact hcr
  · rw [hcore]
  · rw [hee, pri_handOffs, hcore]


/-- C3: when the encode of an in-flight batch succeeds over a directory
that (still) contains the batch and the manifest, exactly the consumed
batch files and the manifest are removed — every other file survives
verbatim — the counter is reset, the mutual-exclusion flag is cleared, and
the recovery scan (`processRemainingImages`) runs exactly once immediately
afterwards. -/
theorem c3_encode_success_deletes_exactly_batch (st : St) (job : EncodeJob)
    (hpe : st.pendingEncode = some job) (hcr : st.crashed = false)
    (hnd : st.dir.Nodup) (hbn : job.files.Nodup)
    (hsub : ∀ f ∈ job.files, f ∈ st.dir)
    (hlf : listFileName ∈ st.dir) (hnlf : listFileName ∉ job.files) :
    (encodeEndCore job st).dir
        = st.dir.filter (fun x => !job.files.contains x && !(x == listFileName))
    ∧ (encodeEndCore job st).screenshotCount = 0
    ∧ (encodeEndCore job st).isCreatingVideo = false
    ∧ (encodeEndCore job st).crashed = false
    ∧ (encodeEndCore job st).videos = st.videos ++ [job.videoName]
    ∧ encodeEnd st = processRemainingImages (encodeEndCore job st)
    ∧ (encodeEnd st).handOffs = st.handOffs + 1 :=
  encodeEndCore_spec st job hpe hcr hnd hbn hsub hlf hnlf

/-- Concrete data discharging the hypotheses of the C3 theorem. -/
def c3job : EncodeJob := { files := ["a.jpg", "b.jpg"], videoName := "v.mp4" }

/-- A state with the C3 batch in flight over a four-file directory. -/
def c3st : St :=
  { mkInit [listFileName, "a.jpg", "b.jpg", "c.jpg"] with
      pendingEncode := some c3job, isCreatingVideo := true }

/-- Witness for C3 at a concrete state: the hypotheses hold and the
directory afterwards is exactly the other files. -/
theorem c3_witness :
    (encodeEndCore c3job c3st).dir
        = c3st.dir.filter (fun x => !c3job.files.contains x && !(x == listFileName))
    ∧ (encodeEndCore c3job c3st).isCreatingVideo = false
    ∧ (encodeEnd c3st).handOffs = c3st.handOffs + 1 :=
  let h := c3_encode_success_deletes_exactly_batch c3st c3job rfl rfl
    (by decide) (by decide) (by decide) (by decide) (by decide)
  ⟨h.1, h.2.2.1, h.2.2.2.2.2.2⟩

/-! ### Claim C6 -/

/-- C6: when the timestamp embedded in the batch last-frame filename
matches the regex but fails to parse as a date, the batch is abandoned
without deleting anything: every file of the directory survives, the
`.jpg` listing is unchanged (the frames will be re-selected by the next
recovery pass), the mutual-exclusion flag ends cleared, no encode is
spawned, capture is resumed (a fresh interval is started), and the process
does not crash. -/
theorem c6_unparseable_timestamp_aborts_cleanly (files : List String)
    (st : St) (ts : String)
    (hflag : st.isCreatingVideo = false) (hcr : st.crashed = false)
    (hlen : TOTAL_CAPTURED_SS_COUNT ≤ files.length)
    (hmatch : matchScreenshotJpg
      ((files.take TOTAL_CAPTURED_SS_COUNT).getLastD "") = some ts)
    (hparse : parseJsDate (restoreISO ts) = none) :
    (∀ f ∈ st.dir, f ∈ (createVideoFromBatch files st).dir)
    ∧ sortedJpgs (createVideoFromBatch files st).dir = sortedJpgs st.dir
    ∧ (createVideoFromBatch files st).isCreatingVideo = false
    ∧ (createVideoFromBatch files st).crashed = false
    ∧ (createVideoFromBatch files st).pendingEncode = st.pendingEncode
    ∧ (createVideoFromBatch files st).liveTimers.length
        = st.liveTimers.length + 1 := by
  rcases cvb_cases files st with ⟨h, _⟩ | ⟨_, h2, _⟩ | ⟨_, _, hm, _⟩ |
    ⟨ts2, _, _, hm, hrest⟩
  · rw [hflag] at h; cases h
  · omega
  · rw [hm] at hmatch; cases hmatch
  · rw [hm] at hmatch
    injection hmatch with hts
    subst hts
    rcases hrest with ⟨_, he⟩ | ⟨d, hp, _⟩
    · rw [he]
      refine ⟨?_, ?_, ?_, ?_, ?_, ?_⟩
      · intro f hf
        exact mem_writeFile_of_mem _ hf
      · show sortedJpgs (writeFile st.dir listFileName) = sortedJpgs st.dir
        exact sortedJpgs_writeFile_manifest st.dir
      · rfl
      · exact hcr
      · rfl
      · simp [resumeCapturing, startCapturing]
    · rw [hparse] at hp; cases hp

/-- The batch used by the C6 witness: 360 screenshot-pattern names whose
embedded timestamp text `x` is not a date. -/
def c6files : List String := List.replicate 360 "screenshot-x.jpg"

set_option maxRecDepth 100000 in
/-- Witness for C6 at a concrete input. -/
theorem c6_witness :
    (createVideoFromBatch c6files (mkInit [])).isCreatingVideo = false
    ∧ (createVideoFromBatch c6files (mkInit [])).crashed = false
    ∧ (createVideoFromBatch c6files (mkInit [])).liveTimers.length
        = (mkInit []).liveTimers.length + 1 :=
  let h := c6_unparseable_timestamp_aborts_cleanly c6files (mkInit []) "x"
    rfl rfl (by decide) (by decide) (by decide)
  ⟨h.2.2.1, h.2.2.2.1, h.2.2.2.2.2⟩

/-! ### Claim C4 -/

theorem mkValidDate_month_pos {y mo dd h mi s ms : Nat} {d : JsDate}
    (hd : mkValidDate y mo dd h mi s ms = some d) : 1 ≤ d.month := by
  unfold mkValidDate at hd
  split at hd
  · next hg =>
    cases hd
    simp only [Bool.and_eq_true, decide_eq_true_eq] at hg
    exact hg.1.1.1.1.1.1.1
  · cases hd

/-- Any date the embedded parser accepts has a month of at least 1
(JavaScript rejects a zero month in an ISO string as an Invalid Date). -/
theorem parseJsDate_month_pos {s : String} {d : JsDate}
    (hp : parseJsDate s = some d) : 1 ≤ d.month := by
  unfold parseJsDate at hp
  split at hp
  · split at hp
    · exact mkValidDate_month_pos hp
    · cases hp
  · split at hp
    · exact mkValidDate_month_pos hp
    · cases hp
  · cases hp

/-- C4: over an already-sorted candidate list with at least N entries whose
last selected name embeds a parseable timestamp, the encoder selects
exactly the first N entries — which are lexicographically no larger than
every left-over entry — deletes nothing (the surplus is untouched), and
names the output video `video-` + year-month-day-hour-minute + `.mp4`
from the parsed timestamp of the Nth (most recent) selected frame, with
the seconds and milliseconds of that timestamp discarded. -/
theorem c4_batch_selection_and_video_name (files : List String) (st : St)
    (ts : String) (d : JsDate)
    (hflag : st.isCreatingVideo = false)
    (hlen : TOTAL_CAPTURED_SS_COUNT ≤ files.length)
    (hsorted : List.Pairwise StrLe files)
    (hmatch : matchScreenshotJpg
      ((files.take TOTAL_CAPTURED_SS_COUNT).getLastD "") = some ts)
    (hparse : parseJsDate (restoreISO ts) = some d) :
    (createVideoFromBatch files st).pendingEncode
        = some { files := files.take TOTAL_CAPTURED_SS_COUNT,
                 videoName := "video-" ++ formatDate d ++ ".mp4" }
    ∧ (∀ x ∈ files.take TOTAL_CAPTURED_SS_COUNT,
        ∀ y ∈ files.drop TOTAL_CAPTURED_SS_COUNT, StrLe x y)
    ∧ (∀ f ∈ st.dir, f ∈ (createVideoFromBatch files st).dir)
    ∧ formatDate d = toString d.year ++ "-" ++ pad2 d.month ++ "-"
        ++ pad2 d.day ++ "-" ++ pad2 d.hour ++ "-" ++ pad2 d.minute
    ∧ (∀ s2 ms2, formatDate { d with second := s2, ms := ms2 }
        = formatDate d) := by
  have hfmt : formatDate d = toString d.year ++ "-" ++ pad2 d.month ++ "-"
      ++ pad2 d.day ++ "-" ++ pad2 d.hour ++ "-" ++ pad2 d.minute := by
    unfold formatDate getFullYear getMonth getDate getHours getMinutes
    have hm1 : d.month - 1 + 1 = d.month :=
      Nat.succ_pred_eq_of_pos (parseJsDate_month_pos hparse)
    rw [hm1]
  have hold : ∀ x ∈ files.take TOTAL_CAPTURED_SS_COUNT,
      ∀ y ∈ files.drop TOTAL_CAPTURED_SS_COUNT, StrLe x y := by
    have hsplit := hsorted
    rw [← List.take_append_drop TOTAL_CAPTURED_SS_COUNT files,
      List.pairwise_append] at hsplit
    exact hsplit.2.2
  rcases cvb_cases files st with ⟨h, _⟩ | ⟨_, h2, _⟩ | ⟨_, _, hm, _⟩ |
    ⟨ts2, _, _, hm, hrest⟩
  · rw [hflag] at h; cases h
  · omega
  · rw [hm] at hmatch; cases hmatch
  · rw [hm] at hmatch
    injection hmatch with hts
    subst hts
    rcases hrest with ⟨hp, _⟩ | ⟨d2, hp, he⟩
    · rw [hparse] at hp; cases hp
    · rw [hparse] at hp
      injection hp with hd
      subst hd
      rw [he]
      exact ⟨rfl, hold, fun f hf => mem_writeFile_of_mem _ hf, hfmt,
        fun s2 ms2 => rfl⟩

/-- The sorted candidate list of the C4 witness. -/
def c4files : List String := sortedJpgs good360

/-- The parsed timestamp of the last frame of the C4 witness batch. -/
def c4date : JsDate := ⟨2024, 1, 2, 3, 4, 5, 359⟩

set_option maxRecDepth 100000 in
/-- Witness for C4 at a concrete input: the spawned job holds the first
360 names and the minute-precision video name. -/
theorem c4_witness :
    (createVideoFromBatch c4files (mkInit good360)).pendingEncode
        = some { files := c4files.take TOTAL_CAPTURED_SS_COUNT,
                 videoName := "video-" ++ formatDate c4date ++ ".mp4" }
    ∧ formatDate c4date = "2024-01-02-03-04" :=
  let h := c4_batch_selection_and_video_name c4files (mkInit good360)
    "2024-01-02T03-04-05-359Z" c4date rfl (by decide)
    (List.sorted_insertionSort StrLe _) (by decide) (by decide)
  ⟨h.1, by decide⟩

/-! ### Claim C7, amended -/

/-- C7 amended: the manifest is created (written into the frame directory)
immediately before the encoding step, on every path that reaches it —
spawn, parse abort, or the line-82 crash; it is deleted again only on
encode success; the encode *failure* callback deletes nothing, so the
manifest survives that terminal outcome. -/
theorem c7_amended_manifest_lifecycle (st : St) :
    (∀ files, st.isCreatingVideo = false →
      TOTAL_CAPTURED_SS_COUNT ≤ files.length →
      listFileName ∈ (createVideoFromBatch files st).dir)
    ∧ (∀ job, st.pendingEncode = some job → st.crashed = false →
        st.dir.Nodup → job.files.Nodup → (∀ f ∈ job.files, f ∈ st.dir) →
        listFileName ∈ st.dir → listFileName ∉ job.files →
        listFileName ∉ (encodeEndCore job st).dir)
    ∧ (encodeError st).dir = st.dir := by
  refine ⟨?_, ?_, ?_⟩
  · intro files hflag hlen
    rcases cvb_cases files st with ⟨h, _⟩ | ⟨_, h2, _⟩ | ⟨_, _, _, he⟩ |
      ⟨ts, _, _, _, ⟨_, he⟩ | ⟨d, _, he⟩⟩
    · rw [hflag] at h; cases h
    · omega
    · rw [he]
      exact self_mem_writeFile _ _
    · rw [he]
      exact self_mem_writeFile _ _
    · rw [he]
      exact self_mem_writeFile _ _
  · intro job hpe hcr hnd hbn hsub hlf hnlf
    have h := encodeEndCore_spec st job hpe hcr hnd hbn hsub hlf hnlf
    rw [h.1]
    intro hmem
    rw [List.mem_filter] at hmem
    have := hmem.2
    simp at this
  · unfold encodeError
    cases hpe : st.pendingEncode with
    | none => rfl
    | some job => simp [resumeCapturing, startCapturing]

set_option maxRecDepth 100000 in
/-- Witness for the amended C7: at concrete states, the manifest exists
after the spawn, is gone after the success callback, and survives the
failure callback. -/
theorem c7_amended_witness :
    listFileName ∈ (createVideoFromBatch c6files (mkInit [])).dir
    ∧ listFileName ∉ (encodeEndCore c3job c3st).dir
    ∧ (encodeError c3st).dir = c3st.dir :=
  ⟨(c7_amended_manifest_lifecycle (mkInit [])).1 c6files rfl (by decide),
   (c7_amended_manifest_lifecycle c3st).2.1 c3job rfl rfl (by decide)
     (by decide) (by decide) (by decide) (by decide),
   (c7_amended_manifest_lifecycle c3st).2.2⟩

/-! ### Claim C8, amended -/

/-- C8 amended: a tick is a no-op exactly when the mutual-exclusion flag
is set or less than one period has elapsed since the last *issued*
capture attempt (the debounce timestamp of line 37 is written at issuance,
before the capture resolves); otherwise it sets the debounce timestamp to
`now` and spawns exactly one capture, leaving the counter alone.  The
counter is incremented by the success callback only; the failure callback
leaves it unchanged. -/
theorem c8_amended_tick_semantics (st : St) (now : Nat)
    (hcr : st.crashed = false) :
    (step (Ev.tick now) st = st ↔
      (st.isCreatingVideo = true
        ∨ now - st.lastCaptureTime < SCREENSHOT_INTERVAL_MS))
    ∧ (st.isCreatingVideo = false →
        SCREENSHOT_INTERVAL_MS ≤ now - st.lastCaptureTime →
        (step (Ev.tick now) st).lastCaptureTime = now
        ∧ (step (Ev.tick now) st).pendingCapture
            = st.pendingCapture ++ [screenshotName now]
        ∧ (step (Ev.tick now) st).screenshotCount = st.screenshotCount)
    ∧ (∀ st2 : St, (captureError st2).screenshotCount = st2.screenshotCount)
    ∧ (∀ (st2 : St) (name : String) (rest : List String),
        st2.pendingCapture = name :: rest →
        (captureEnd st2).screenshotCount = st2.screenshotCount + 1) := by
  have hstep : step (Ev.tick now) st = captureScreenshot now st := by
    unfold step
    rw [if_neg (by simp [hcr])]
  have hcond : (st.isCreatingVideo
      || decide (now - st.lastCaptureTime < SCREENSHOT_INTERVAL_MS)) = true
      ↔ (st.isCreatingVideo = true
        ∨ now - st.lastCaptureTime < SCREENSHOT_INTERVAL_MS) := by
    simp
  refine ⟨?_, ?_, ?_, ?_⟩
  · rw [hstep]
    unfold captureScreenshot
    by_cases hc : st.isCreatingVideo = true
        ∨ now - st.lastCaptureTime < SCREENSHOT_INTERVAL_MS
    · rw [if_pos (hcond.mpr hc)]
      simp [hc]
    · rw [if_neg (fun h => hc (hcond.mp h))]
      constructor
      · intro he
        exfalso
        have hpc := congrArg St.pendingCapture he
        have hlen := congrArg List.length hpc
        simp at hlen
      · intro h
        exact absurd h hc
  · intro hflag hge
    rw [hstep]
    unfold captureScreenshot
    rw [if_neg (fun h => by
      rcases hcond.mp h with h | h
      · rw [hflag] at h; cases h
      · omega)]
    exact ⟨rfl, rfl, rfl⟩
  · intro st2
    unfold captureError
    cases hpc : st2.pendingCapture <;> simp
  · intro st2 name rest hpc
    unfold captureEnd
    rw [hpc]
    dsimp only
    split
    · rw [pri_screenshotCount]
    · rfl

/-- Witness for the amended C8: at `boot []` a tick at t = 10000 passes
the guard, stamps the debounce time and spawns one capture. -/
theorem c8_amended_witness :
    (step (Ev.tick 10000) (boot [])).lastCaptureTime = 10000
    ∧ (step (Ev.tick 10000) (boot [])).pendingCapture
        = (boot []).pendingCapture ++ [screenshotName 10000]
    ∧ (captureError (boot [])).screenshotCount = (boot []).screenshotCount :=
  let h := c8_amended_tick_semantics (boot []) 10000 (by decide)
  ⟨(h.2.1 (by decide) (by decide)).1, (h.2.1 (by decide) (by decide)).2.1,
   h.2.2.1 (boot [])⟩

/-! ### Infrastructure for the mutual-exclusion claim -/

/-- Field bookkeeping of a tick: everything except the debounce timestamp
and the spawn queue is untouched, whichever branch the guard takes. -/
theorem captureScreenshot_misc (now : Nat) (st : St) :
    (captureScreenshot now st).isCreatingVideo = st.isCreatingVideo
    ∧ (captureScreenshot now st).gEnter = st.gEnter
    ∧ (captureScreenshot now st).gExitSuccess = st.gExitSuccess
    ∧ (captureScreenshot now st).gExitAbort = st.gExitAbort
    ∧ (captureScreenshot now st).gExitFailure = st.gExitFailure
    ∧ (captureScreenshot now st).pendingEncode = st.pendingEncode
    ∧ (captureScreenshot now st).screenshotCount = st.screenshotCount
    ∧ (captureScreenshot now st).crashed = st.crashed
    ∧ (captureScreenshot now st).handOffs = st.handOffs
    ∧ (captureScreenshot now st).timerClears = st.timerClears := by
  unfold captureScreenshot
  split <;> simp

/-- Field bookkeeping of the capture failure callback. -/
theorem captureError_misc (st : St) :
    (captureError st).isCreatingVideo = st.isCreatingVideo
    ∧ (captureError st).gEnter = st.gEnter
    ∧ (captureError st).gExitSuccess = st.gExitSuccess
    ∧ (captureError st).gExitAbort = st.gExitAbort
    ∧ (captureError st).gExitFailure = st.gExitFailure
    ∧ (captureError st).pendingEncode = st.pendingEncode
    ∧ (captureError st).screenshotCount = st.screenshotCount
    ∧ (captureError st).crashed = st.crashed
    ∧ (captureError st).handOffs = st.handOffs
    ∧ (captureError st).timerClears = st.timerClears := by
  unfold captureError
  split <;> simp

/-- The encode success callback always consumes the in-flight job. -/
theorem encodeEndCore_pendingEncode (job : EncodeJob) (st : St) :
    (encodeEndCore job st).pendingEncode = none := by
  unfold encodeEndCore
  dsimp only
  split
  · rfl
  · split <;> rfl

/-- Exhaustive field characterization of the encode success callback:
either one of the two `unlinkSync` crashes (flag and ghosts untouched), or
the clean success (flag cleared, success ghost bumped). -/
theorem encodeEndCore_ghosts (job : EncodeJob) (st : St) :
    ((encodeEndCore job st).isCreatingVideo = st.isCreatingVideo
      ∧ (encodeEndCore job st).crashed = true
      ∧ (encodeEndCore job st).gEnter = st.gEnter
      ∧ (encodeEndCore job st).gExitSuccess = st.gExitSuccess
      ∧ (encodeEndCore job st).gExitAbort = st.gExitAbort
      ∧ (encodeEndCore job st).gExitFailure = st.gExitFailure)
    ∨ ((encodeEndCore job st).isCreatingVideo = false
      ∧ (encodeEndCore job st).crashed = st.crashed
      ∧ (encodeEndCore job st).gEnter = st.gEnter
      ∧ (encodeEndCore job st).gExitSuccess = st.gExitSuccess + 1
      ∧ (encodeEndCore job st).gExitAbort = st.gExitAbort
      ∧ (encodeEndCore job st).gExitFailure = st.gExitFailure) := by
  unfold encodeEndCore
  dsimp only
  split
  · left; simp
  · split
    · right; simp
    · left; simp

/-- The invariant of claim C2: an encode in flight implies the
mutual-exclusion flag is set. -/
def EncodeImpliesFlag (st : St) : Prop :=
  st.pendingEncode.isSome = true → st.isCreatingVideo = true

theorem eif_cvb (files : List String) (st : St) (h : EncodeImpliesFlag st) :
    EncodeImpliesFlag (createVideoFromBatch files st) := by
  rcases cvb_cases files st with ⟨_, he⟩ | ⟨hflag, _, he⟩ | ⟨_, _, _, he⟩ |
    ⟨ts, hflag, _, _, ⟨_, he⟩ | ⟨d, _, he⟩⟩
  · rw [he]; exact h
  · rw [he]
    intro hs
    simp only [resumeCapturing, startCapturing] at hs
    exact absurd (h hs) (by simp [hflag])
  · rw [he]
    intro _
    rfl
  · rw [he]
    intro hs
    simp only [resumeCapturing, startCapturing] at hs
    exact absurd (h hs) (by simp [hflag])
  · rw [he]
    intro _
    rfl

theorem eif_pri (st : St) (h : EncodeImpliesFlag st) :
    EncodeImpliesFlag (processRemainingImages st) := by
  unfold processRemainingImages
  dsimp only
  split
  · exact eif_cvb _ _ (fun hs => h hs)
  · intro hs
    simp only [resumeCapturing, startCapturing] at hs ⊢
    exact h hs

theorem eif_captureEnd (st : St) (h : EncodeImpliesFlag st) :
    EncodeImpliesFlag (captureEnd st) := by
  unfold captureEnd
  split
  · exact h
  · dsimp only
    split
    · exact eif_pri _ (fun hs => h hs)
    · exact fun hs => h hs

theorem eif_encodeEnd (st : St) (h : EncodeImpliesFlag st) :
    EncodeImpliesFlag (encodeEnd st) := by
  unfold encodeEnd
  split
  · exact h
  · dsimp only
    split
    · intro hs
      rw [encodeEndCore_pendingEncode] at hs
      cases hs
    · apply eif_pri
      intro hs
      rw [encodeEndCore_pendingEncode] at hs
      cases hs

theorem eif_encodeError (st : St) (h : EncodeImpliesFlag st) :
    EncodeImpliesFlag (encodeError st) := by
  unfold encodeError
  split
  · exact h
  · intro hs
    simp only [resumeCapturing, startCapturing] at hs
    cases hs

theorem eif_step (e : Ev) (st : St) (h : EncodeImpliesFlag st) :
    EncodeImpliesFlag (step e st) := by
  unfold step
  split
  · exact h
  · cases e with
    | tick now =>
      intro hs
      rw [(captureScreenshot_misc now st).2.2.2.2.2.1] at hs
      rw [(captureScreenshot_misc now st).1]
      exact h hs
    | capEnd => exact eif_captureEnd st h
    | capErr =>
      intro hs
      rw [(captureError_misc st).2.2.2.2.2.1] at hs
      rw [(captureError_misc st).1]
      exact h hs
    | encEnd => exact eif_encodeEnd st h
    | encErr => exact eif_encodeError st h

theorem eif_run (tr : List Ev) (st : St) (h : EncodeImpliesFlag st) :
    EncodeImpliesFlag (run tr st) := by
  induction tr generalizing st with
  | nil => exact h
  | cons e tr ih => exact ih (step e st) (eif_step e st h)

theorem eif_boot (d0 : List String) : EncodeImpliesFlag (boot d0) := by
  unfold boot processImagesOnStartup
  have h0 : EncodeImpliesFlag (mkInit d0) := fun hs => by cases hs
  have h1 := eif_pri (mkInit d0) h0
  dsimp only
  split
  · exact h1
  · intro hs
    simp only [startCapturing] at hs
    exact h1 hs

theorem pri_pendingEncode_of_flag (st : St)
    (hflag : st.isCreatingVideo = true) :
    (processRemainingImages st).pendingEncode = st.pendingEncode := by
  have hft : ({ st with handOffs := st.handOffs + 1 } : St).isCreatingVideo
      = true := hflag
  unfold processRemainingImages
  dsimp only
  split
  · rcases cvb_cases (sortedJpgs st.dir) { st with handOffs := st.handOffs + 1 }
      with ⟨_, he⟩ | ⟨hf, _, _⟩ | ⟨hf, _, _, _⟩ | ⟨ts, hf, _⟩
    · rw [he]
    · rw [hft] at hf; cases hf
    · rw [hft] at hf; cases hf
    · rw [hft] at hf; cases hf
  · rfl

/-- While the mutual-exclusion flag is set, no event other than the
in-flight encode callbacks changes the in-flight job: in particular no
second encode can begin. -/
theorem pendingEncode_frozen_of_flag (st : St)
    (hflag : st.isCreatingVideo = true) :
    ∀ e : Ev, e ≠ Ev.encEnd → e ≠ Ev.encErr →
      (step e st).pendingEncode = st.pendingEncode := by
  intro e h1 h2
  cases e with
  | tick now =>
    unfold step
    split
    · rfl
    · show (captureScreenshot now st).pendingEncode = st.pendingEncode
      exact (captureScreenshot_misc now st).2.2.2.2.2.1
  | capEnd =>
    unfold step
    split
    · rfl
    · show (captureEnd st).pendingEncode = st.pendingEncode
      unfold captureEnd
      split
      · rfl
      · dsimp only
        split
        · exact pri_pendingEncode_of_flag _ hflag
        · rfl
  | capErr =>
    unfold step
    split
    · rfl
    · show (captureError st).pendingEncode = st.pendingEncode
      exact (captureError_misc st).2.2.2.2.2.1
  | encEnd => exact absurd rfl h1
  | encErr => exact absurd rfl h2

/-! ### Flag-transition bookkeeping (entries and terminal outcomes) -/

theorem ghostA_cvb (files : List String) (st : St)
    (hflag : st.isCreatingVideo = false)
    (hup : (createVideoFromBatch files st).isCreatingVideo = true) :
    (createVideoFromBatch files st).gEnter = st.gEnter + 1 := by
  rcases cvb_cases files st with ⟨h, _⟩ | ⟨_, _, he⟩ | ⟨_, _, _, he⟩ |
    ⟨ts, _, _, _, ⟨_, he⟩ | ⟨d, _, he⟩⟩
  · rw [hflag] at h; cases h
  · rw [he] at hup
    simp [resumeCapturing, startCapturing] at hup
  · rw [he]
  · rw [he] at hup
    simp [resumeCapturing, startCapturing] at hup
  · rw [he]

theorem ghostB_cvb (files : List String) (st : St)
    (hflag : st.isCreatingVideo = true)
    (hdown : (createVideoFromBatch files st).isCreatingVideo = false) :
    False := by
  rcases cvb_cases files st with ⟨_, he⟩ | ⟨h, _, _⟩ | ⟨h, _⟩ | ⟨ts, h, _⟩
  · rw [he, hflag] at hdown; cases hdown
  · rw [hflag] at h; cases h
  · rw [hflag] at h; cases h
  · rw [hflag] at h; cases h

theorem ghostA_pri (st : St) (hflag : st.isCreatingVideo = false)
    (hup : (processRemainingImages st).isCreatingVideo = true) :
    (processRemainingImages st).gEnter = st.gEnter + 1 := by
  unfold processRemainingImages at hup ⊢
  dsimp only at hup ⊢
  split at hup
  · next hc =>
    rw [if_pos hc]
    exact ghostA_cvb _ _ hflag hup
  · next hc =>
    simp [resumeCapturing, startCapturing] at hup
    exact absurd hup (by simp [hflag])

theorem ghostB_pri (st : St)
    (hdown : (processRemainingImages st).isCreatingVideo = false)
    (hflag : st.isCreatingVideo = true) :
    False := by
  unfold processRemainingImages at hdown
  dsimp only at hdown
  split at hdown
  · exact ghostB_cvb _ { st with handOffs := st.handOffs + 1 } hflag hdown
  · simp [resumeCapturing, startCapturing] at hdown
    rw [hflag] at hdown
    cases hdown

theorem cvb_exits_ge (files : List String) (st : St) :
    st.gExitSuccess + st.gExitAbort + st.gExitFailure
      ≤ (createVideoFromBatch files st).gExitSuccess
        + (createVideoFromBatch files st).gExitAbort
        + (createVideoFromBatch files st).gExitFailure := by
  rcases cvb_cases files st with ⟨_, he⟩ | ⟨_, _, he⟩ | ⟨_, _, _, he⟩ |
    ⟨ts, _, _, _, ⟨_, he⟩ | ⟨d, _, he⟩⟩ <;>
    rw [he] <;> simp [resumeCapturing, startCapturing]

theorem pri_exits_ge (st : St) :
    st.gExitSuccess + st.gExitAbort + st.gExitFailure
      ≤ (processRemainingImages st).gExitSuccess
        + (processRemainingImages st).gExitAbort
        + (processRemainingImages st).gExitFailure := by
  unfold processRemainingImages
  dsimp only
  split
  · exact cvb_exits_ge _ { st with handOffs := st.handOffs + 1 }
  · simp [resumeCapturing, startCapturing]

theorem ghostA_captureEnd (st : St) (hflag : st.isCreatingVideo = false)
    (hup : (captureEnd st).isCreatingVideo = true) :
    (captureEnd st).gEnter = st.gEnter + 1 := by
  cases hpc : st.pendingCapture with
  | nil =>
    unfold captureEnd at hup ⊢
    rw [hpc] at hup ⊢
    rw [hflag] at hup
    cases hup
  | cons n r =>
    unfold captureEnd at hup ⊢
    rw [hpc] at hup ⊢
    dsimp only at hup ⊢
    by_cases hth : TOTAL_CAPTURED_SS_COUNT ≤ st.screenshotCount + 1
    · rw [if_pos hth] at hup ⊢
      exact ghostA_pri _ hflag hup
    · rw [if_neg hth] at hup
      rw [hflag] at hup
      cases hup

theorem ghostB_captureEnd (st : St) (hflag : st.isCreatingVideo = true)
    (hdown : (captureEnd st).isCreatingVideo = false) : False := by
  cases hpc : st.pendingCapture with
  | nil =>
    unfold captureEnd at hdown
    rw [hpc, hflag] at hdown
    cases hdown
  | cons n r =>
    unfold captureEnd at hdown
    rw [hpc] at hdown
    dsimp only at hdown
    by_cases hth : TOTAL_CAPTURED_SS_COUNT ≤ st.screenshotCount + 1
    · rw [if_pos hth] at hdown
      exact ghostB_pri _ hdown hflag
    · rw [if_neg hth, hflag] at hdown
      cases hdown

theorem ghostA_encodeEnd (st : St) (hflag : st.isCreatingVideo = false)
    (hup : (encodeEnd st).isCreatingVideo = true) :
    (encodeEnd st).gEnter = st.gEnter + 1 := by
  cases hpe : st.pendingEncode with
  | none =>
    unfold encodeEnd at hup ⊢
    rw [hpe] at hup ⊢
    rw [hflag] at hup
    cases hup
  | some job =>
    unfold encodeEnd at hup ⊢
    rw [hpe] at hup ⊢
    dsimp only at hup ⊢
    rcases encodeEndCore_ghosts job st with ⟨hf, hcrash, hg, _⟩ |
      ⟨hf, hcrash, hg, _⟩
    · rw [if_pos hcrash] at hup ⊢
      rw [hf, hflag] at hup
      cases hup
    · by_cases hcr2 : (encodeEndCore job st).crashed = true
      · rw [if_pos hcr2] at hup ⊢
        rw [hf] at hup
        cases hup
      · rw [if_neg hcr2] at hup ⊢
        rw [ghostA_pri _ hf hup, hg]

theorem ghostB_encodeEnd (st : St) (hflag : st.isCreatingVideo = true)
    (hdown : (encodeEnd st).isCreatingVideo = false) :
    st.gExitSuccess + st.gExitAbort + st.gExitFailure + 1
      ≤ (encodeEnd st).gExitSuccess + (encodeEnd st).gExitAbort
        + (encodeEnd st).gExitFailure := by
  cases hpe : st.pendingEncode with
  | none =>
    unfold encodeEnd at hdown
    rw [hpe, hflag] at hdown
    cases hdown
  | some job =>
    unfold encodeEnd at hdown ⊢
    rw [hpe] at hdown ⊢
    dsimp only at hdown ⊢
    rcases encodeEndCore_ghosts job st with ⟨hf, hcrash, _, hs, ha, hx⟩ |
      ⟨hf, hcrash, _, hs, ha, hx⟩
    · rw [if_pos hcrash] at hdown
      rw [hf, hflag] at hdown
      cases hdown
    · by_cases hcr2 : (encodeEndCore job st).crashed = true
      · rw [if_pos hcr2]
        rw [hs, ha, hx]
        omega
      · rw [if_neg hcr2]
        have hge := pri_exits_ge (encodeEndCore job st)
        rw [hs, ha, hx] at hge
        omega

theorem ghostAB_encodeError (st : St) :
    (st.isCreatingVideo = false → (encodeError st).isCreatingVideo = true →
      (encodeError st).gEnter = st.gEnter + 1)
    ∧ (st.isCreatingVideo = true → (encodeError st).isCreatingVideo = false →
      st.gExitSuccess + st.gExitAbort + st.gExitFailure + 1
        ≤ (encodeError st).gExitSuccess + (encodeError st).gExitAbort
          + (encodeError st).gExitFailure) := by
  unfold encodeError
  cases hpe : st.pendingEncode with
  | none =>
    constructor
    · intro hflag hup
      rw [hflag] at hup
      cases hup
    · intro hflag hdown
      rw [hflag] at hdown
      cases hdown
  | some job =>
    constructor
    · intro hflag hup
      simp [resumeCapturing, startCapturing] at hup
    · intro hflag hdown
      simp [resumeCapturing, startCapturing]
      omega

/-! ### Claim C2 -/

/-- C2: mutual exclusion.
Part 1: a tick that actually issues a capture (observably: the spawn queue
grows) only does so with the mutual-exclusion flag clear.
Part 2: at every state reachable from any startup, an in-flight encode
implies the flag is set — so, with the entry guard of line 63, no second
encode can begin while one is in flight.
Part 3: while an encode is in flight, no event other than its own
completion callbacks changes the in-flight job.
Part 4: the flag is raised only by a `createVideoFromBatch` entry (the
entry ghost counts exactly one new entry) and lowered only by one of its
terminal outcomes (the success / abort / failure ghosts gain at least
one). -/
theorem c2_mutual_exclusion :
    (∀ (st : St) (now : Nat),
      (step (Ev.tick now) st).pendingCapture.length
          ≠ st.pendingCapture.length →
      st.isCreatingVideo = false)
    ∧ (∀ (d0 : List String) (tr : List Ev),
        (run tr (boot d0)).pendingEncode.isSome = true →
        (run tr (boot d0)).isCreatingVideo = true)
    ∧ (∀ (d0 : List String) (tr : List Ev) (e : Ev),
        (run tr (boot d0)).pendingEncode.isSome = true →
        e ≠ Ev.encEnd → e ≠ Ev.encErr →
        (step e (run tr (boot d0))).pendingEncode
          = (run tr (boot d0)).pendingEncode)
    ∧ (∀ (st : St) (e : Ev),
        (st.isCreatingVideo = false → (step e st).isCreatingVideo = true →
          (step e st).gEnter = st.gEnter + 1)
        ∧ (st.isCreatingVideo = true → (step e st).isCreatingVideo = false →
          st.gExitSuccess + st.gExitAbort + st.gExitFailure + 1
            ≤ (step e st).gExitSuccess + (step e st).gExitAbort
              + (step e st).gExitFailure)) := by
  refine ⟨?_, ?_, ?_, ?_⟩
  · intro st now hne
    by_cases hcr : st.crashed = true
    · exfalso
      apply hne
      rw [show step (Ev.tick now) st = st by unfold step; rw [if_pos hcr]]
    · have hstep : step (Ev.tick now) st = captureScreenshot now st := by
        unfold step; rw [if_neg hcr]
      rw [hstep] at hne
      unfold captureScreenshot at hne
      by_cases hc : (st.isCreatingVideo
          || decide (now - st.lastCaptureTime < SCREENSHOT_INTERVAL_MS)) = true
      · rw [if_pos hc] at hne
        exact absurd rfl hne
      · cases hflag : st.isCreatingVideo
        · rfl
        · exact absurd (by rw [hflag]; rfl) hc
  · intro d0 tr
    exact eif_run tr (boot d0) (eif_boot d0)
  · intro d0 tr e hsome h1 h2
    exact pendingEncode_frozen_of_flag _
      (eif_run tr (boot d0) (eif_boot d0) hsome) e h1 h2
  · intro st e
    by_cases hcr : st.crashed = true
    · rw [show step e st = st by unfold step; rw [if_pos hcr]]
      constructor
      · intro hflag hup
        rw [hflag] at hup
        cases hup
      · intro hflag hdown
        rw [hflag] at hdown
        cases hdown
    · have hstep : ∀ f : St → St, (∀ s, step e s = if s.crashed = true
          then s else f s) → step e st = f st := fun f hf => by
        rw [hf st, if_neg hcr]
      cases e with
      | tick now =>
        rw [show step (Ev.tick now) st = captureScreenshot now st by
          unfold step; rw [if_neg hcr]]
        constructor
        · intro hflag hup
          rw [(captureScreenshot_misc now st).1, hflag] at hup
          cases hup
        · intro hflag hdown
          rw [(captureScreenshot_misc now st).1, hflag] at hdown
          cases hdown
      | capEnd =>
        rw [show step Ev.capEnd st = captureEnd st by
          unfold step; rw [if_neg hcr]]
        constructor
        · exact ghostA_captureEnd st
        · intro hflag hdown
          exact absurd (ghostB_captureEnd st hflag hdown) (fun h => h)
      | capErr =>
        rw [show step Ev.capErr st = captureError st by
          unfold step; rw [if_neg hcr]]
        constructor
        · intro hflag hup
          rw [(captureError_misc st).1, hflag] at hup
          cases hup
        · intro hflag hdown
          rw [(captureError_misc st).1, hflag] at hdown
          cases hdown
      | encEnd =>
        rw [show step Ev.encEnd st = encodeEnd st by
          unfold step; rw [if_neg hcr]]
        exact ⟨ghostA_encodeEnd st, ghostB_encodeEnd st⟩
      | encErr =>
        rw [show step Ev.encErr st = encodeError st by
          unfold step; rw [if_neg hcr]]
        exact ghostAB_encodeError st

/-- The state one successful capture away from the batch threshold, over a
full backlog. -/
def c2st : St :=
  { mkInit good360 with pendingCapture := ["x.jpg"], screenshotCount := 359 }

set_option maxRecDepth 1000000 in
/-- Witness for C2 at concrete inputs: a tick that issues a capture finds
the flag clear; after startup over a backlog an encode is in flight and
the flag is set; a tick does not disturb the in-flight job; the 360th
capture callback raises the flag with exactly one recorded entry; the
encode success callback lowers it with a recorded terminal outcome. -/
theorem c2_witness :
    (boot []).isCreatingVideo = false
    ∧ (boot good360).isCreatingVideo = true
    ∧ (step (Ev.tick 0) (boot good360)).pendingEncode
        = (boot good360).pendingEncode
    ∧ (step Ev.capEnd c2st).gEnter = c2st.gEnter + 1
    ∧ c3st.gExitSuccess + c3st.gExitAbort + c3st.gExitFailure + 1
        ≤ (step Ev.encEnd c3st).gExitSuccess + (step Ev.encEnd c3st).gExitAbort
          + (step Ev.encEnd c3st).gExitFailure :=
  ⟨c2_mutual_exclusion.1 (boot []) 100000 (by decide),
   c2_mutual_exclusion.2.1 good360 [] (by decide),
   c2_mutual_exclusion.2.2.1 good360 [] (Ev.tick 0) (by decide) (by decide)
     (by decide),
   (c2_mutual_exclusion.2.2.2 c2st Ev.capEnd).1 (by decide) (by decide),
   (c2_mutual_exclusion.2.2.2 c3st Ev.encEnd).2 (by decide) (by decide)⟩

/-! ### Claim C1 -/

theorem cvb_timerClears (files : List String) (st : St) :
    (createVideoFromBatch files st).timerClears = st.timerClears := by
  rcases cvb_cases files st with ⟨_, he⟩ | ⟨_, _, he⟩ | ⟨_, _, _, he⟩ |
    ⟨ts, _, _, _, ⟨_, he⟩ | ⟨d, _, he⟩⟩ <;>
    rw [he] <;> simp [resumeCapturing, startCapturing]

theorem pri_timerClears (st : St) :
    (processRemainingImages st).timerClears = st.timerClears := by
  unfold processRemainingImages
  dsimp only
  split
  · rw [cvb_timerClears]
  · simp [resumeCapturing, startCapturing]

theorem capEndCount_cons (e : Ev) (tr : List Ev) :
    capEndCount (e :: tr)
      = capEndCount tr + (if isCapEndEv e = true then 1 else 0) := by
  unfold capEndCount
  rw [List.countP_cons]

theorem capturePhase_cons {e : Ev} {tr : List Ev}
    (h : capturePhase (e :: tr) = true) :
    isCapturePhaseEv e = true ∧ capturePhase tr = true := by
  unfold capturePhase at h
  rw [List.all_cons, Bool.and_eq_true] at h
  exact ⟨h.1, h.2⟩

/-- A capture-phase trace without successful-capture callbacks never
touches the hand-off or the timer-stop ghost. -/
theorem c1_ghost_frozen (tr : List Ev) (st : St)
    (hph : capturePhase tr = true) (hzero : capEndCount tr = 0) :
    (run tr st).handOffs = st.handOffs
    ∧ (run tr st).timerClears = st.timerClears := by
  induction tr generalizing st with
  | nil => exact ⟨rfl, rfl⟩
  | cons e tr ih =>
    obtain ⟨hh, hph2⟩ := capturePhase_cons hph
    rw [capEndCount_cons] at hzero
    have hrun : run (e :: tr) st = run tr (step e st) := rfl
    rw [hrun]
    cases e with
    | tick now =>
      simp [isCapEndEv] at hzero
      have h1 : (step (Ev.tick now) st).handOffs = st.handOffs ∧
          (step (Ev.tick now) st).timerClears = st.timerClears := by
        unfold step
        split
        · exact ⟨rfl, rfl⟩
        · obtain ⟨_, _, _, _, _, _, _, _, hho, htc⟩ :=
            captureScreenshot_misc now st
          exact ⟨hho, htc⟩
      obtain ⟨ihh, iht⟩ := ih (step (Ev.tick now) st) hph2 (by omega)
      exact ⟨by rw [ihh, h1.1], by rw [iht, h1.2]⟩
    | capEnd => simp [isCapEndEv] at hzero
    | capErr =>
      simp [isCapEndEv] at hzero
      have h1 : (step Ev.capErr st).handOffs = st.handOffs ∧
          (step Ev.capErr st).timerClears = st.timerClears := by
        unfold step
        split
        · exact ⟨rfl, rfl⟩
        · obtain ⟨_, _, _, _, _, _, _, _, hho, htc⟩ := captureError_misc st
          exact ⟨hho, htc⟩
      obtain ⟨ihh, iht⟩ := ih (step Ev.capErr st) hph2 (by omega)
      exact ⟨by rw [ihh, h1.1], by rw [iht, h1.2]⟩
    | encEnd => simp [isCapturePhaseEv] at hh
    | encErr => simp [isCapturePhaseEv] at hh

/-- Below the threshold nothing is handed off: when fewer than N captures
succeed in the remaining trace, the hand-off and timer-stop ghosts and the
crash flag are untouched. -/
theorem c1_run_low (tr : List Ev) (st : St) (hph : capturePhase tr = true)
    (hcr : st.crashed = false)
    (hbound : st.screenshotCount + capEndCount tr
      < TOTAL_CAPTURED_SS_COUNT) :
    (run tr st).handOffs = st.handOffs
    ∧ (run tr st).timerClears = st.timerClears
    ∧ (run tr st).crashed = false := by
  induction tr generalizing st with
  | nil => exact ⟨rfl, rfl, hcr⟩
  | cons e tr ih =>
    obtain ⟨hh, hph2⟩ := capturePhase_cons hph
    rw [capEndCount_cons] at hbound
    have hncr : ¬ st.crashed = true := by simp [hcr]
    have hrun : run (e :: tr) st = run tr (step e st) := rfl
    rw [hrun]
    cases e with
    | tick now =>
      simp [isCapEndEv] at hbound
      have hs : step (Ev.tick now) st = captureScreenshot now st := by
        unfold step; rw [if_neg hncr]
      rw [hs]
      obtain ⟨_, _, _, _, _, _, hcnt, hcrash, hho, htc⟩ :=
        captureScreenshot_misc now st
      obtain ⟨ihh, iht, ihc⟩ := ih (captureScreenshot now st) hph2
        (by rw [hcrash]; exact hcr) (by rw [hcnt]; omega)
      exact ⟨by rw [ihh, hho], by rw [iht, htc], ihc⟩
    | capEnd =>
      simp [isCapEndEv] at hbound
      have hs : step Ev.capEnd st = captureEnd st := by
        unfold step; rw [if_neg hncr]
      rw [hs]
      cases hpc : st.pendingCapture with
      | nil =>
        have hce : captureEnd st = st := by
          unfold captureEnd; rw [hpc]
        rw [hce]
        exact ih st hph2 hcr (by omega)
      | cons n r =>
        have hth : ¬ TOTAL_CAPTURED_SS_COUNT ≤ st.screenshotCount + 1 := by
          omega
        have hce : captureEnd st =
            { st with pendingCapture := r,
                      dir := writeFile st.dir n,
                      screenshotCount := st.screenshotCount + 1 } := by
          unfold captureEnd
          rw [hpc]
          dsimp only
          rw [if_neg hth]
        rw [hce]
        exact ih _ hph2 hcr
          (by show st.screenshotCount + 1 + capEndCount tr
                < TOTAL_CAPTURED_SS_COUNT
              omega)
    | capErr =>
      simp [isCapEndEv] at hbound
      have hs : step Ev.capErr st = captureError st := by
        unfold step; rw [if_neg hncr]
      rw [hs]
      obtain ⟨_, _, _, _, _, _, hcnt, hcrash, hho, htc⟩ := captureError_misc st
      obtain ⟨ihh, iht, ihc⟩ := ih (captureError st) hph2
        (by rw [hcrash]; exact hcr) (by rw [hcnt]; omega)
      exact ⟨by rw [ihh, hho], by rw [iht, htc], ihc⟩
    | encEnd => simp [isCapturePhaseEv] at hh
    | encErr => simp [isCapturePhaseEv] at hh

/-- With exactly the missing number of successful captures in the trace
(each callback matching an in-flight capture), the Nth success fires the
timer stop and the hand-off exactly once. -/
theorem c1_run_exact (tr : List Ev) (st : St)
    (hph : capturePhase tr = true) (hok : capturesOk st tr = true)
    (hcr : st.crashed = false)
    (hcount : st.screenshotCount + capEndCount tr = TOTAL_CAPTURED_SS_COUNT)
    (hlow : st.screenshotCount < TOTAL_CAPTURED_SS_COUNT) :
    (run tr st).handOffs = st.handOffs + 1
    ∧ (run tr st).timerClears = st.timerClears + 1 := by
  induction tr generalizing st with
  | nil =>
    exfalso
    unfold capEndCount at hcount
    simp at hcount
    omega
  | cons e tr ih =>
    obtain ⟨hh, hph2⟩ := capturePhase_cons hph
    have hok2 : capReady e st = true ∧ capturesOk (step e st) tr = true := by
      unfold capturesOk at hok
      rw [Bool.and_eq_true] at hok
      exact ⟨hok.1, hok.2⟩
    rw [capEndCount_cons] at hcount
    have hncr : ¬ st.crashed = true := by simp [hcr]
    have hrun : run (e :: tr) st = run tr (step e st) := rfl
    rw [hrun]
    cases e with
    | tick now =>
      simp [isCapEndEv] at hcount
      have hs : step (Ev.tick now) st = captureScreenshot now st := by
        unfold step; rw [if_neg hncr]
      rw [hs]
      obtain ⟨_, _, _, _, _, _, hcnt, hcrash, hho, htc⟩ :=
        captureScreenshot_misc now st
      have hok3 : capturesOk (captureScreenshot now st) tr = true := by
        rw [← hs]; exact hok2.2
      obtain ⟨ihh, iht⟩ := ih (captureScreenshot now st) hph2 hok3
        (by rw [hcrash]; exact hcr) (by rw [hcnt]; omega) (by rw [hcnt]; omega)
      exact ⟨by rw [ihh, hho], by rw [iht, htc]⟩
    | capEnd =>
      simp [isCapEndEv] at hcount
      have hs : step Ev.capEnd st = captureEnd st := by
        unfold step; rw [if_neg hncr]
      rw [hs]
      cases hpc : st.pendingCapture with
      | nil =>
        unfold capReady at hok2
        rw [hpc] at hok2
        simp at hok2
      | cons n r =>
        by_cases hth : TOTAL_CAPTURED_SS_COUNT ≤ st.screenshotCount + 1
        · have hctr0 : capEndCount tr = 0 := by omega
          have hce : captureEnd st = processRemainingImages
              { st with pendingCapture := r,
                        dir := writeFile st.dir n,
                        screenshotCount := st.screenshotCount + 1,
                        liveTimers := clearCurrentInterval st.liveTimers
                          st.captureInterval,
                        captureInterval := none,
                        timerClears := st.timerClears + 1 } := by
            unfold captureEnd
            rw [hpc]
            dsimp only
            rw [if_pos hth]
          rw [hce]
          obtain ⟨fh, ft⟩ := c1_ghost_frozen tr _ hph2 hctr0
          constructor
          · rw [fh, pri_handOffs]
          · rw [ft, pri_timerClears]
        · have hce : captureEnd st =
              { st with pendingCapture := r,
                        dir := writeFile st.dir n,
                        screenshotCount := st.screenshotCount + 1 } := by
            unfold captureEnd
            rw [hpc]
            dsimp only
            rw [if_neg hth]
          rw [hce]
          have hok3 : capturesOk
              ({ st with pendingCapture := r,
                         dir := writeFile st.dir n,
                         screenshotCount := st.screenshotCount + 1 } : St)
              tr = true := by
            rw [← hce, ← hs]; exact hok2.2
          exact ih _ hph2 hok3 hcr
            (by show st.screenshotCount + 1 + capEndCount tr
                  = TOTAL_CAPTURED_SS_COUNT
                omega)
            (by show st.screenshotCount + 1 < TOTAL_CAPTURED_SS_COUNT
                omega)
    | capErr =>
      simp [isCapEndEv] at hcount
      have hs : step Ev.capErr st = captureError st := by
        unfold step; rw [if_neg hncr]
      rw [hs]
      obtain ⟨_, _, _, _, _, _, hcnt, hcrash, hho, htc⟩ := captureError_misc st
      have hok3 : capturesOk (captureError st) tr = true := by
        rw [← hs]; exact hok2.2
      obtain ⟨ihh, iht⟩ := ih (captureError st) hph2 hok3
        (by rw [hcrash]; exact hcr) (by rw [hcnt]; omega) (by rw [hcnt]; omega)
      exact ⟨by rw [ihh, hho], by rw [iht, htc]⟩
    | encEnd => simp [isCapturePhaseEv] at hh
    | encErr => simp [isCapturePhaseEv] at hh

/-- C1: starting from a batch reset (counter zero), a capture-phase trace
in which every callback matches an in-flight capture triggers no hand-off
and no timer stop as long as fewer than N captures succeed; with exactly N
successes, the Nth success stops the timer and invokes the hand-off
(`processRemainingImages`) exactly once. -/
theorem c1_nth_capture_single_handoff (st0 : St) (tr : List Ev)
    (hcr : st0.crashed = false) (hzero : st0.screenshotCount = 0)
    (hph : capturePhase tr = true) (hok : capturesOk st0 tr = true) :
    (capEndCount tr < TOTAL_CAPTURED_SS_COUNT →
      (run tr st0).handOffs = st0.handOffs
      ∧ (run tr st0).timerClears = st0.timerClears)
    ∧ (capEndCount tr = TOTAL_CAPTURED_SS_COUNT →
      (run tr st0).handOffs = st0.handOffs + 1
      ∧ (run tr st0).timerClears = st0.timerClears + 1) := by
  constructor
  · intro hlt
    obtain ⟨h1, h2, _⟩ := c1_run_low tr st0 hph hcr (by omega)
    exact ⟨h1, h2⟩
  · intro heq
    exact c1_run_exact tr st0 hph hok hcr (by omega) (by rw [hzero]; decide)

/-- 360 in-flight captures, as after a long stall of the callbacks. -/
def c1st : St :=
  { mkInit [] with pendingCapture := List.replicate 360 "x.jpg" }

/-- 360 successful-capture callbacks. -/
def c1tr : List Ev := List.replicate 360 Ev.capEnd

set_option maxRecDepth 1000000 in
/-- Witness for C1 at a concrete trace of exactly N successes. -/
theorem c1_witness :
    (run c1tr c1st).handOffs = c1st.handOffs + 1
    ∧ (run c1tr c1st).timerClears = c1st.timerClears + 1 :=
  (c1_nth_capture_single_handoff c1st c1tr rfl rfl (by decide)
    (by decide)).2 (by decide)

/-! ### Claim C9, amended -/

theorem encodeEndCore_pendingCapture (job : EncodeJob) (st : St) :
    (encodeEndCore job st).pendingCapture = st.pendingCapture := by
  unfold encodeEndCore
  dsimp only
  split
  · rfl
  · split <;> rfl

/-- The crash-freedom invariant: the script has not crashed, the directory
listing is duplicate-free, every `.jpg` file in it matches the screenshot
pattern, every in-flight capture writes a pattern-matching name, and an
in-flight encode batch is a duplicate-free set of `.jpg` files all present
in the directory alongside the manifest. -/
def Inv (st : St) : Prop :=
  st.crashed = false
  ∧ st.dir.Nodup
  ∧ (∀ f ∈ st.dir, strEndsWith f ".jpg" = true →
      (matchScreenshotJpg f).isSome = true)
  ∧ (∀ f ∈ st.pendingCapture, (matchScreenshotJpg f).isSome = true)
  ∧ (∀ job, st.pendingEncode = some job →
      job.files.Nodup ∧ (∀ f ∈ job.files, f ∈ st.dir)
      ∧ (∀ f ∈ job.files, strEndsWith f ".jpg" = true)
      ∧ listFileName ∈ st.dir)

theorem inv_cvb (files : List String) (st : St) (h : Inv st)
    (hfsub : ∀ f ∈ files, f ∈ st.dir)
    (hfjpg : ∀ f ∈ files, strEndsWith f ".jpg" = true)
    (hfpat : ∀ f ∈ files, (matchScreenshotJpg f).isSome = true)
    (hfnd : files.Nodup) :
    Inv (createVideoFromBatch files st) := by
  obtain ⟨hcr, hnd, hjpg, hpend, henc⟩ := h
  have hjpg2 : ∀ f ∈ writeFile st.dir listFileName,
      strEndsWith f ".jpg" = true → (matchScreenshotJpg f).isSome = true := by
    intro f hf hj
    rcases mem_of_mem_writeFile hf with hf | hf
    · exact hjpg f hf hj
    · subst hf
      rw [manifest_not_jpg] at hj
      cases hj
  rcases cvb_cases files st with ⟨_, he⟩ | ⟨_, _, he⟩ | ⟨_, hge, hm, he⟩ |
    ⟨ts, _, hge, hm, ⟨hp, he⟩ | ⟨d, hp, he⟩⟩
  · rw [he]
    exact ⟨hcr, hnd, hjpg, hpend, henc⟩
  · rw [he]
    exact ⟨hcr, hnd, hjpg, hpend, fun job hj => henc job hj⟩
  · exfalso
    have hN : 0 < TOTAL_CAPTURED_SS_COUNT := by decide
    have htk : files.take TOTAL_CAPTURED_SS_COUNT ≠ [] := by
      intro hnil
      have hlen := congrArg List.length hnil
      rw [List.length_take] at hlen
      simp only [List.length_nil] at hlen
      rcases Nat.min_eq_zero_iff.mp hlen with h0 | h0 <;> omega
    have hmem0 := getLastD_mem htk ""
    have hmemf := List.take_subset _ _ hmem0
    have hpat := hfpat _ hmemf
    rw [hm] at hpat
    cases hpat
  · rw [he]
    refine ⟨hcr, writeFile_nodup _ hnd, hjpg2, hpend, ?_⟩
    intro job hj
    obtain ⟨a, b, c, dd⟩ := henc job hj
    exact ⟨a, fun f hf => mem_writeFile_of_mem _ (b f hf), c,
      mem_writeFile_of_mem _ dd⟩
  · rw [he]
    refine ⟨hcr, writeFile_nodup _ hnd, hjpg2, hpend, ?_⟩
    intro job hj
    injection hj with hj
    subst hj
    refine ⟨(List.take_sublist _ _).nodup hfnd, ?_, ?_,
      self_mem_writeFile _ _⟩
    · intro f hf
      exact mem_writeFile_of_mem _ (hfsub f (List.take_subset _ _ hf))
    · intro f hf
      exact hfjpg f (List.take_subset _ _ hf)

theorem inv_pri (st : St) (h : Inv st) : Inv (processRemainingImages st) := by
  obtain ⟨hcr, hnd, hjpg, hpend, henc⟩ := h
  unfold processRemainingImages
  dsimp only
  split
  · apply inv_cvb
    · exact ⟨hcr, hnd, hjpg, hpend, fun job hj => henc job hj⟩
    · intro f hf
      exact (mem_sortedJpgs hf).1
    · intro f hf
      exact (mem_sortedJpgs hf).2
    · intro f hf
      obtain ⟨hfd, hfj⟩ := mem_sortedJpgs hf
      exact hjpg f hfd hfj
    · exact sortedJpgs_nodup hnd
  · exact ⟨hcr, hnd, hjpg, hpend, fun job hj => henc job hj⟩

theorem inv_captureScreenshot (now : Nat) (st : St) (h : Inv st) :
    Inv (captureScreenshot now st) := by
  obtain ⟨hcr, hnd, hjpg, hpend, henc⟩ := h
  unfold captureScreenshot
  split
  · exact ⟨hcr, hnd, hjpg, hpend, henc⟩
  · refine ⟨hcr, hnd, hjpg, ?_, fun job hj => henc job hj⟩
    intro f hf
    rcases List.mem_append.mp hf with hf | hf
    · exact hpend f hf
    · rw [List.mem_singleton] at hf
      subst hf
      exact screenshotName_matches now

theorem inv_captureError (st : St) (h : Inv st) : Inv (captureError st) := by
  obtain ⟨hcr, hnd, hjpg, hpend, henc⟩ := h
  cases hpc : st.pendingCapture with
  | nil =>
    unfold captureError
    rw [hpc]
    exact ⟨hcr, hnd, hjpg, hpend, henc⟩
  | cons n r =>
    unfold captureError
    rw [hpc]
    refine ⟨hcr, hnd, hjpg, ?_, fun job hj => henc job hj⟩
    intro f hf
    exact hpend f (by rw [hpc]; exact List.mem_cons_of_mem _ hf)

theorem inv_captureEnd (st : St) (h : Inv st) : Inv (captureEnd st) := by
  obtain ⟨hcr, hnd, hjpg, hpend, henc⟩ := h
  cases hpc : st.pendingCapture with
  | nil =>
    unfold captureEnd
    rw [hpc]
    exact ⟨hcr, hnd, hjpg, hpend, henc⟩
  | cons n r =>
    have hnpat : (matchScreenshotJpg n).isSome = true :=
      hpend n (by rw [hpc]; exact List.mem_cons_self _ _)
    have hnd2 : (writeFile st.dir n).Nodup := writeFile_nodup _ hnd
    have hjpg2 : ∀ f ∈ writeFile st.dir n, strEndsWith f ".jpg" = true →
        (matchScreenshotJpg f).isSome = true := by
      intro f hf hj
      rcases mem_of_mem_writeFile hf with hf | hf
      · exact hjpg f hf hj
      · subst hf
        exact hnpat
    have hpend2 : ∀ f ∈ r, (matchScreenshotJpg f).isSome = true :=
      fun f hf => hpend f (by rw [hpc]; exact List.mem_cons_of_mem _ hf)
    have henc2 : ∀ job, st.pendingEncode = some job →
        job.files.Nodup ∧ (∀ f ∈ job.files, f ∈ writeFile st.dir n)
        ∧ (∀ f ∈ job.files, strEndsWith f ".jpg" = true)
        ∧ listFileName ∈ writeFile st.dir n := by
      intro job hj
      obtain ⟨a, b, c, dd⟩ := henc job hj
      exact ⟨a, fun f hf => mem_writeFile_of_mem _ (b f hf), c,
        mem_writeFile_of_mem _ dd⟩
    unfold captureEnd
    rw [hpc]
    dsimp only
    split
    · exact inv_pri _ ⟨hcr, hnd2, hjpg2, hpend2, fun job hj => henc2 job hj⟩
    · exact ⟨hcr, hnd2, hjpg2, hpend2, fun job hj => henc2 job hj⟩

theorem inv_encodeEnd (st : St) (h : Inv st) : Inv (encodeEnd st) := by
  obtain ⟨hcr, hnd, hjpg, hpend, henc⟩ := h
  cases hpe : st.pendingEncode with
  | none =>
    unfold encodeEnd
    rw [hpe]
    exact ⟨hcr, hnd, hjpg, hpend, henc⟩
  | some job =>
    obtain ⟨ha, hb, hc, hd⟩ := henc job hpe
    have hnlf : listFileName ∉ job.files := by
      intro hm
      have := hc listFileName hm
      rw [manifest_not_jpg] at this
      cases this
    have hspec := encodeEndCore_spec st job hpe hcr hnd ha hb hd hnlf
    have hinvcore : Inv (encodeEndCore job st) := by
      refine ⟨hspec.2.2.2.1, ?_, ?_, ?_, ?_⟩
      · rw [hspec.1]
        exact hnd.filter _
      · rw [hspec.1]
        intro f hf hj
        exact hjpg f (List.mem_filter.mp hf).1 hj
      · rw [encodeEndCore_pendingCapture]
        exact hpend
      · intro j2 hj2
        rw [encodeEndCore_pendingEncode] at hj2
        cases hj2
    unfold encodeEnd
    rw [hpe]
    dsimp only
    rw [if_neg (by rw [hspec.2.2.2.1]; simp)]
    exact inv_pri _ hinvcore

theorem inv_encodeError (st : St) (h : Inv st) : Inv (encodeError st) := by
  obtain ⟨hcr, hnd, hjpg, hpend, henc⟩ := h
  cases hpe : st.pendingEncode with
  | none =>
    unfold encodeError
    rw [hpe]
    exact ⟨hcr, hnd, hjpg, hpend, henc⟩
  | some job =>
    unfold encodeError
    rw [hpe]
    refine ⟨hcr, hnd, hjpg, hpend, ?_⟩
    intro j2 hj2
    simp [resumeCapturing, startCapturing] at hj2

theorem inv_step (e : Ev) (st : St) (h : Inv st) : Inv (step e st) := by
  unfold step
  split
  · exact h
  · cases e with
    | tick now => exact inv_captureScreenshot now st h
    | capEnd => exact inv_captureEnd st h
    | capErr => exact inv_captureError st h
    | encEnd => exact inv_encodeEnd st h
    | encErr => exact inv_encodeError st h

theorem inv_run (tr : List Ev) (st : St) (h : Inv st) : Inv (run tr st) := by
  induction tr generalizing st with
  | nil => exact h
  | cons e tr ih => exact ih (step e st) (inv_step e st h)

theorem inv_boot (d0 : List String) (hnd : d0.Nodup)
    (hw : ∀ f ∈ d0, strEndsWith f ".jpg" = true →
      (matchScreenshotJpg f).isSome = true) : Inv (boot d0) := by
  have h0 : Inv (mkInit d0) :=
    ⟨rfl, hnd, hw, fun f hf => absurd hf (List.not_mem_nil f),
     fun job hj => Option.noConfusion hj⟩
  have h1 : Inv (processRemainingImages (mkInit d0)) := inv_pri _ h0
  unfold boot processImagesOnStartup
  dsimp only
  split
  · exact h1
  · obtain ⟨a, b, c, d, e⟩ := h1
    exact ⟨a, b, c, d, fun job hj => e job hj⟩

/-- C9 amended: provided every `.jpg` file initially in the frame
directory matches the screenshot pattern (and names are unique, as a
filesystem listing is), no trace of events from startup ever crashes the
process: capture failures, encode failures, shortfalls and unparseable
timestamps are all handled locally.  (The unamended claim is refuted by
`c9_foreign_jpg_name_crashes`: a foreign `.jpg` name crashes line 82.) -/
theorem c9_amended_no_crash_wellformed (d0 : List String) (tr : List Ev)
    (hnd : d0.Nodup)
    (hw : ∀ f ∈ d0, strEndsWith f ".jpg" = true →
      (matchScreenshotJpg f).isSome = true) :
    (run tr (boot d0)).crashed = false :=
  (inv_run tr _ (inv_boot d0 hnd hw)).1

/-- Witness for the amended C9: a startup over an empty directory followed
by a tick, a successful capture and a failed capture attempt never
crashes. -/
theorem c9_amended_witness :
    (run [Ev.tick 10000, Ev.capEnd, Ev.tick 20000, Ev.capErr]
      (boot [])).crashed = false :=
  c9_amended_no_crash_wellformed []
    [Ev.tick 10000, Ev.capEnd, Ev.tick 20000, Ev.capErr]
    (by decide) (by decide)

end RtspCore
